import Mathlib

/-! The m5_csv access-control controller (src/m5_csv/src/main.cpp)

Shallow embedding of the controller firmware and proofs about it.

Modelling conventions
* An Arduino `String` and the content of a file are `List Char` (text without
  embedded NUL bytes).  The `String`/`Stream` library calls used by the firmware
  (`trim`, `indexOf`, `substring`, `toInt`, `String(n)`, `String(n, HEX)`,
  `readStringUntil`) are embedded by their library behaviour on the target
  (ESP32, 32-bit `long`, newlib `atol`).
* The globals of `main.cpp`, the PWM duty last written to `PIN_SOL`, the last
  colour passed to `setLED`, the microsecond counter behind
  `esp_timer_get_time()` and the three files on the SD volume form `State`.
* Every `analogWrite(PIN_SOL, _)`, `setLED`, `delay`, `SD.open` and `file.print`
  is appended to `State.trace`, so that the order of effects can be stated.
* `Serial` output and `M5.update()` have no effect on the modelled state.
* What the outside world decides in one pass of `loop()` (door switch, card
  reader, whether the log can be opened, how long the polls take) is `Env`;
  what it decides during `setup()` is `Boot`.
-/

namespace M5Csv

/-! ## Constants (main.cpp lines 11-34) -/

def LED_INTENSITY : Nat := 70
def PWM_STRONG_ON : Nat := 255
def PWM_WEAK_ON : Nat := 25
def PWM_OFF : Nat := 0
def kUnauthorizedHoldMs : Nat := 1000
def kLogHoldMs : Nat := 300
def kCardCooldownMs : Nat := 2000
def kUnlockHoldMs : Nat := 5000

/-- Two to the 32: the modulus of `uint32_t`. -/
def U32 : Nat := 4294967296

/-- Two to the 64: the modulus of `uint64_t`. -/
def U64 : Nat := 18446744073709551616

/-- Subtraction of two `uint64_t` values (wraps modulo 2^64). -/
def subU64 (a b : Nat) : Nat := (a % U64 + (U64 - b % U64)) % U64

/-! ## Library text functions -/

/-- C `isspace` in the "C" locale: space, and the controls 9..13. -/
def isspace (c : Char) : Bool := c = ' ' || (9 ≤ c.toNat && c.toNat ≤ 13)

/-- C `isdigit`. -/
def isdigit (c : Char) : Bool := 48 ≤ c.toNat && c.toNat ≤ 57

/-- The method `String::trim`: strips leading and trailing `isspace` characters. -/
def trim (s : List Char) : List Char :=
  ((s.dropWhile isspace).reverse.dropWhile isspace).reverse

/-- The method `String::indexOf(ch)`: position of the first `ch`, or `-1`. -/
def indexOf (c : Char) : List Char → Int
  | [] => -1
  | x :: xs => if x = c then 0 else (if indexOf c xs < 0 then -1 else indexOf c xs + 1)

/-- The method `String::substring(left, right)`. -/
def substring (s : List Char) (left right : Nat) : List Char :=
  let l := if left > right then right else left
  let r := if left > right then left else right
  if l ≥ s.length then [] else (s.take (min r s.length)).drop l

/-- The method `Stream::readStringUntil(t)` on the unread rest of a file: the text up to
the first `t` (which is consumed and not returned) or up to the end, and what is
left unread. -/
def readStringUntil (t : Char) : List Char → List Char × List Char
  | [] => ([], [])
  | c :: cs => if c = t then ([], cs) else ((c :: (readStringUntil t cs).1), (readStringUntil t cs).2)

/-- Digit table of `utoa`/`ultoa`. -/
def digitTable : List Char := "0123456789abcdefghijklmnopqrstuvwxyz".toList

/-- Character of one digit value. -/
def digitChar (d : Nat) : Char := digitTable.getD d '?'

/-- Digits of `n` in `base`, least significant first: the `do ... while (n)`
loop of `utoa`, with the recursion bounded by `fuel`. -/
def utoaRev (base : Nat) : Nat → Nat → List Char
  | 0, _ => []
  | fuel + 1, n =>
    digitChar (n % base) :: (if n / base = 0 then [] else utoaRev base fuel (n / base))

/-- The constructors `String(unsigned value, base)`: `utoa`, no padding, lowercase. -/
def utoa (n base : Nat) : List Char := (utoaRev base (n + 1) n).reverse

/-- Largest `long` of the target (`long` is 32 bits wide). -/
def LONG_MAX : Int := 2147483647

/-- Smallest `long` of the target. -/
def LONG_MIN : Int := -2147483648

/-- Digit accumulation of `strtol`: stops at the first non-digit. -/
def strtolDigits (acc : Nat) : List Char → Nat
  | [] => acc
  | c :: cs => if isdigit c then strtolDigits (acc * 10 + (c.toNat - 48)) cs else acc

/-- The method `String::toInt`, that is `atol` = `strtol(s, NULL, 10)`: skips
leading white space, reads an optional sign and the decimal digits that follow,
gives 0 when there are none, and saturates at `LONG_MIN`/`LONG_MAX`. -/
def toInt (s : List Char) : Int :=
  match s.dropWhile isspace with
  | [] => 0
  | c :: r =>
    if c = '-' then max LONG_MIN (-(strtolDigits 0 r : Int))
    else if c = '+' then min LONG_MAX (strtolDigits 0 r : Int)
    else min LONG_MAX (strtolDigits 0 (c :: r) : Int)

/-- The cast `(uint32_t)` of a `long`. -/
def toUint32 (z : Int) : Nat := (z % 4294967296).toNat

/-! ## State, effects and inputs -/

/-- The three files the firmware opens on the SD volume. -/
inductive Path
  | idlist
  | log
  | bootid
  deriving DecidableEq

/-- Modes of `SD.open`: `"r"`, `"w"`, `FILE_APPEND`. -/
inductive Mode
  | r
  | w
  | a
  deriving DecidableEq

/-- Observable effects, in program order. -/
inductive Event
  | sol (duty : Nat)
  | led (r g b : Nat)
  | delay (ms : Nat)
  | fopen (p : Path) (m : Mode) (ok : Bool)
  | fprint (p : Path) (text : List Char)
  deriving DecidableEq

/-- Globals of main.cpp, the two outputs, the clock and the SD files. -/
structure State where
  id_list : List (List Char)
  last_uid : List Char
  last_uid_ms : Nat
  boot_id : Nat
  unlocking_active : Bool
  unlock_start_ms : Nat
  sol : Nat
  led : Nat × Nat × Nat
  clock_us : Nat
  boot_file : Option (List Char)
  log_file : Option (List Char)
  id_file : Option (List Char)
  trace : List Event
  deriving DecidableEq

/-- What the outside world decides during one pass of `loop()`. -/
structure Env where
  /-- Microseconds spent in `M5.update()` before anything else. -/
  dt_pre : Nat
  /-- The value of `isLocked()` in `showLockStatusLED` (true = switch reads LOW). -/
  door_led : Bool
  /-- The value of `isLocked()` in `updateUnlockState`. -/
  door_upd : Bool
  /-- Microseconds spent in `nfc.readPassiveTargetID`. -/
  dt_card : Nat
  /-- Result of `nfc.readPassiveTargetID`. -/
  card_ok : Bool
  /-- The bytes the reader stored in `uid`; their number is `uidLength`. -/
  card_uid : List (Fin 256)
  /-- Microseconds spent opening the log file. -/
  dt_log : Nat
  /-- Whether `SD.open("/log.csv", FILE_APPEND)` yields a file. -/
  log_open : Bool
  deriving DecidableEq

/-- What the outside world decides during `setup()`. -/
structure Boot where
  /-- PWM duty on the solenoid pin left by whatever ran before the reset. -/
  sol0 : Nat
  led0 : Nat × Nat × Nat
  clock0 : Nat
  /-- Result of `nfc.getFirmwareVersion()`. -/
  versiondata : Nat
  /-- Result of `SD.begin`. -/
  sd_ok : Bool
  boot_file : Option (List Char)
  log_file : Option (List Char)
  id_file : Option (List Char)
  /-- Whether `SD.open("/boot_id.txt", "w")` yields a file. -/
  boot_write_ok : Bool
  /-- Whether `SD.open("/log.csv", FILE_APPEND)` yields a file. -/
  log_append_ok : Bool
  /-- The value of `isLocked()` at the end of `setup`. -/
  door : Bool
  deriving DecidableEq

/-- The enumeration `InitError`. -/
inductive InitError
  | RFID_INIT
  | SD_INIT
  | BOOT_ID
  | LOG_HEADER
  | IDLIST
  deriving DecidableEq

/-- How `setup()` ends: it returns (the control loop starts), or it enters
`initFailLoop(err)`, which never returns. -/
inductive Outcome
  | running (s : State)
  | halted (err : InitError) (s : State)
  deriving DecidableEq

/-! ## Primitive effects -/

/-- Appends one effect to the trace. -/
def emit (e : Event) (s : State) : State := { s with trace := s.trace ++ [e] }

/-- Time passing without any modelled effect. -/
def tick (us : Nat) (s : State) : State := { s with clock_us := s.clock_us + us }

/-- The expression `(uint64_t)esp_timer_get_time() / 1000ULL`. -/
def nowMs (s : State) : Nat := (s.clock_us % U64) / 1000

/-- The call `delay(ms)`. -/
def delay (ms : Nat) (s : State) : State :=
  emit (Event.delay ms) { s with clock_us := s.clock_us + 1000 * ms }

/-- The call `analogWrite(PIN_SOL, duty)`. -/
def analogWrite (duty : Nat) (s : State) : State :=
  emit (Event.sol duty) { s with sol := duty }

/-- Source `setLED` (lines 51-56); the colour is kept as the arguments `(r, g, b)`. -/
def setLED (r g b : Nat) (s : State) : State :=
  emit (Event.led r g b) { s with led := (r, g, b) }

/-- Source `blinkLED` (lines 58-67). -/
def blinkLED (r g b : Nat) (times on_ms off_ms : Nat) (s : State) : State :=
  match times with
  | 0 => s
  | k + 1 => blinkLED r g b k on_ms off_ms (delay off_ms (setLED 0 0 0 (delay on_ms (setLED r g b s))))

/-- Source `showLockStatusLED` (lines 74-86): green when locked, blue otherwise. -/
def showLockStatusLED (locked : Bool) (s : State) : State :=
  if locked then setLED 0 LED_INTENSITY 0 s else setLED 0 0 LED_INTENSITY s

/-- Source `unlockSolenoid` (lines 88-93). -/
def unlockSolenoid (s : State) : State :=
  analogWrite PWM_WEAK_ON (delay 300 (analogWrite PWM_STRONG_ON s))

/-- Source `lockSolenoid` (lines 95-98). -/
def lockSolenoid (s : State) : State := analogWrite PWM_OFF s

/-! ## Credential list (lines 109-154) -/

/-- The `while (file.available())` loop of `readIDListFromSD` on the unread
rest of the file; each pass consumes at least one character, so `fuel` equal to
the length of the file is enough. -/
def readIDLoop : Nat → List Char → List (List Char) → List (List Char)
  | 0, _, ids => ids
  | fuel + 1, rest, ids =>
    if rest.length = 0 then ids
    else
      let line := trim (readStringUntil '\n' rest).1
      let rest2 := (readStringUntil '\n' rest).2
      if line.length = 0 then readIDLoop fuel rest2 ids
      else
        let comma := indexOf ',' line
        let uid := trim (if comma ≥ 0 then substring line 0 comma.toNat else line)
        if uid.length > 0 then readIDLoop fuel rest2 (ids ++ [uid])
        else readIDLoop fuel rest2 ids

/-- The list `readIDListFromSD` builds from the content of `/IDlist.csv`. -/
def loadIDList (content : List Char) : List (List Char) :=
  readIDLoop content.length content []

/-- Source `readIDListFromSD` (lines 109-142). -/
def readIDListFromSD (s : State) : Bool × State :=
  let s1 := blinkLED LED_INTENSITY 0 LED_INTENSITY 2 120 120 { s with id_list := [] }
  match s1.id_file with
  | none => (false, emit (Event.fopen Path.idlist Mode.r false) s1)
  | some content =>
    (true, { emit (Event.fopen Path.idlist Mode.r true) s1 with id_list := loadIDList content })

/-- Source `isAuthorized` (lines 144-154): linear scan with `String ==`. -/
def isAuthorized (id_list : List (List Char)) (uid : List Char) : Bool :=
  match id_list with
  | [] => false
  | x :: xs => if x = uid then true else isAuthorized xs uid

/-! ## Card reader (lines 156-176) -/

/-- The `for` loop of `readCardUID` over the bytes of the tag identifier. -/
def hexLoop : List (Fin 256) → List Char → List Char
  | [], id => id
  | b :: bs, id =>
    let id1 := if b.val < 16 then id ++ ['0'] else id
    hexLoop bs (id1 ++ utoa b.val 16)

/-- Source `readCardUID` (lines 156-176). -/
def readCardUID (success : Bool) (uid : List (Fin 256)) : List Char :=
  if !success || uid.length = 0 then [] else hexLoop uid []

/-! ## Audit log and boot counter (lines 178-261) -/

/-- Source `recordLog` (lines 178-200). -/
def recordLog (dt_open : Nat) (open_ok : Bool) (uid : List Char) (s : State) : Bool × State :=
  let s1 := emit (Event.fopen Path.log Mode.a open_ok) (tick dt_open (setLED LED_INTENSITY 0 LED_INTENSITY s))
  if !open_ok then (false, s1)
  else
    let ms := nowMs s1
    let line := utoa s1.boot_id 10 ++ [','] ++ utoa (ms % U32) 10 ++ [','] ++ uid ++ ['\n']
    let s2 := emit (Event.fprint Path.log line) { s1 with log_file := some (s1.log_file.getD [] ++ line) }
    (true, delay kLogHoldMs s2)

/-- Source `readBootId` (lines 202-219). -/
def readBootId (s : State) : Nat × State :=
  match s.boot_file with
  | none => (0, emit (Event.fopen Path.bootid Mode.r false) s)
  | some content =>
    let line := trim (readStringUntil '\n' content).1
    ((if line.length > 0 then toUint32 (toInt line) else 0),
      emit (Event.fopen Path.bootid Mode.r true) s)

/-- Source `writeBootId` (lines 221-234); mode `"w"` replaces the content. -/
def writeBootId (open_ok : Bool) (id : Nat) (s : State) : Bool × State :=
  let s1 := emit (Event.fopen Path.bootid Mode.w open_ok) s
  if !open_ok then (false, s1)
  else
    (true, emit (Event.fprint Path.bootid (utoa id 10 ++ ['\n']))
      { s1 with boot_file := some (utoa id 10 ++ ['\n']) })

/-- The header line of the audit log. -/
def logHeader : List Char := "boot_id,elapsed_ms,uid\n".toList

/-- Source `ensureLogHeader` (lines 236-261). -/
def ensureLogHeader (append_ok : Bool) (s : State) : Bool × State :=
  let hasData := match s.log_file with
    | none => false
    | some c => decide (c.length > 0)
  let s1 := emit (Event.fopen Path.log Mode.r s.log_file.isSome) s
  if hasData then (true, s1)
  else
    let s2 := emit (Event.fopen Path.log Mode.a append_ok) s1
    if !append_ok then (false, s2)
    else
      (true, emit (Event.fprint Path.log logHeader)
        { s2 with log_file := some (s2.log_file.getD [] ++ logHeader) })

/-! ## Startup (lines 263-362) -/

/-- The `switch` of `initFailLoop` (lines 265-308): colour `(r, g, b)` and blink count. -/
def initFailPattern (err : InitError) : (Nat × Nat × Nat) × Nat :=
  match err with
  | InitError.RFID_INIT => ((LED_INTENSITY, 0, 0), 1)
  | InitError.SD_INIT => ((LED_INTENSITY, 0, 0), 2)
  | InitError.BOOT_ID => ((LED_INTENSITY, 0, 0), 3)
  | InitError.LOG_HEADER => ((LED_INTENSITY, 0, LED_INTENSITY), 1)
  | InitError.IDLIST => ((LED_INTENSITY, 0, LED_INTENSITY), 2)

/-- The first `rounds` passes of the `while (true)` of `initFailLoop`
(lines 310-314); the loop has no exit. -/
def initFailLoop (err : InitError) (rounds : Nat) (s : State) : State :=
  match rounds with
  | 0 => s
  | k + 1 =>
    let p := initFailPattern err
    initFailLoop err k (delay 1000 (blinkLED p.1.1 p.1.2.1 p.1.2.2 p.2 150 150 s))

/-- The globals as initialised at reset (lines 29-40), with the outputs, clock and
files found at that moment. -/
def initState (b : Boot) : State :=
  { id_list := [], last_uid := [], last_uid_ms := 0, boot_id := 0,
    unlocking_active := false, unlock_start_ms := 0,
    sol := b.sol0, led := b.led0, clock_us := b.clock0,
    boot_file := b.boot_file, log_file := b.log_file, id_file := b.id_file,
    trace := [] }

/-- Source `setup` (lines 317-362). -/
def setup (b : Boot) : Outcome :=
  let s1 := analogWrite PWM_OFF (setLED LED_INTENSITY LED_INTENSITY LED_INTENSITY (initState b))
  if b.versiondata = 0 then Outcome.halted InitError.RFID_INIT s1
  else if !b.sd_ok then Outcome.halted InitError.SD_INIT s1
  else
    let rd := readBootId s1
    let s2 := { rd.2 with boot_id := (rd.1 + 1) % U32 }
    let wr := writeBootId b.boot_write_ok s2.boot_id s2
    if !wr.1 then Outcome.halted InitError.BOOT_ID wr.2
    else
      let hd := ensureLogHeader b.log_append_ok wr.2
      if !hd.1 then Outcome.halted InitError.LOG_HEADER hd.2
      else
        let il := readIDListFromSD hd.2
        if !il.1 then Outcome.halted InitError.IDLIST il.2
        else Outcome.running (showLockStatusLED b.door il.2)

/-! ## Control loop (lines 364-434) -/

/-- Source `updateUnlockState` (lines 364-393). -/
def updateUnlockState (locked : Bool) (s : State) : State :=
  if !s.unlocking_active then s
  else
    let elapsed := subU64 (nowMs s) s.unlock_start_ms
    if elapsed < kUnlockHoldMs then s
    else if !locked then { lockSolenoid s with unlocking_active := false }
    else if elapsed ≥ (kUnlockHoldMs * 2) % U32 then { lockSolenoid s with unlocking_active := false }
    else s

/-- The body of `if (uid.length() > 0)` in `loop` (lines 405-431).  The flag is
true when the body leaves `loop` through the `return` of the cooldown branch. -/
def handleCard (e : Env) (uid : List Char) (s : State) : State × Bool :=
  let now := nowMs s
  if uid = s.last_uid ∧ subU64 now s.last_uid_ms < kCardCooldownMs then (delay 50 s, true)
  else
    let s1 := { s with last_uid := uid, last_uid_ms := now }
    if isAuthorized s1.id_list uid then
      let s2 := { unlockSolenoid s1 with unlocking_active := true }
      let s3 := { s2 with unlock_start_ms := nowMs s2 }
      ((recordLog e.dt_log e.log_open uid s3).2, false)
    else
      (lockSolenoid (delay kUnauthorizedHoldMs (setLED LED_INTENSITY 0 0 s1)), false)

/-- Source `loop` (lines 395-434). -/
def loop (e : Env) (s : State) : State :=
  let s1 := updateUnlockState e.door_upd (showLockStatusLED e.door_led (tick e.dt_pre s))
  let s2 := tick e.dt_card s1
  let uid := readCardUID e.card_ok e.card_uid
  if uid.length > 0 then
    let h := handleCard e uid s2
    if h.2 then h.1 else delay 10 h.1
  else delay 10 s2

/-- States the controller can be in between two passes of `loop()`: the state
`setup()` returns with, and every state one more pass leads to. -/
inductive Reachable : State → Prop
  | boot (b : Boot) (s : State) (h : setup b = Outcome.running s) : Reachable s
  | step (e : Env) (s : State) (h : Reachable s) : Reachable (loop e s)

/-! ## Definitions that follow the specification's words -/

/-- The lines of a file: the pieces between line feeds. -/
def fileLines : List Char → List (List Char)
  | [] => [[]]
  | c :: cs =>
    if c = '\n' then [] :: fileLines cs
    else
      match fileLines cs with
      | [] => [[c]]
      | l :: ls => (c :: l) :: ls

/-- The text of a line before its first comma (the whole line when it has none). -/
def beforeComma (l : List Char) : List Char := l.takeWhile (fun c => c ≠ ',')

/-- The credential id of a line as section 4.1 words it: the line trimmed, cut at the
first comma, trimmed again. -/
def credentialOf (l : List Char) : List Char := trim (beforeComma (trim l))

/-- The sixteen hexadecimal digits, lowercase. -/
def hexDigits : List Char := "0123456789abcdef".toList

/-- Zero-padded two-digit lowercase hexadecimal rendering of a byte. -/
def hex2 (b : Fin 256) : List Char := [hexDigits.getD (b.val / 16) '?', hexDigits.getD (b.val % 16) '?']

/-- The state in which `loop` looks at the card: after `M5.update()`, the status
colour, `updateUnlockState` and the poll of the reader. -/
def preCard (e : Env) (s : State) : State :=
  tick e.dt_card (updateUnlockState e.door_upd (showLockStatusLED e.door_led (tick e.dt_pre s)))

/-- The hexadecimal rendering of a tag identifier as section 3 of the specification
words it: two lowercase zero-padded digits per byte, no separators. -/
def hexString : List (Fin 256) → List Char
  | [] => []
  | b :: bs => hex2 b ++ hexString bs

/-- The credential a line of the list contributes, if any: its credential id when
that is not empty. -/
def lineCredential (l : List Char) : Option (List Char) :=
  if credentialOf l = [] then none else some (credentialOf l)

/-- A text has no leading and no trailing white space. -/
def edgeFree (l : List Char) : Prop :=
  (∀ c, l.head? = some c → isspace c = false) ∧ (∀ c, l.getLast? = some c → isspace c = false)

/-- Two lines are the same up to what follows their first comma. -/
def sameUpToComma (l1 l2 : List Char) : Prop :=
  l1 = l2 ∨ ∃ pre a1 a2, ',' ∉ pre ∧ l1 = pre ++ ',' :: a1 ∧ l2 = pre ++ ',' :: a2

/-- A line of a credential-list file as section 6 of the specification words it: a
blank line, or a credential optionally followed by a comma and a note. -/
inductive Entry
  | blank (ws : List Char)
  | cred (id : List Char) (note : Option (List Char))

/-- The text of a line, without its line feed. -/
def Entry.text : Entry → List Char
  | Entry.blank ws => ws
  | Entry.cred id none => id
  | Entry.cred id (some n) => id ++ ',' :: n

/-- Well-formed lines: a blank line holds white space only and no line feed; a
credential is non-empty, free of commas and line feeds and of white space at
its ends; a note holds no line feed. -/
def Entry.ok : Entry → Prop
  | Entry.blank ws => (∀ c ∈ ws, isspace c = true) ∧ '\n' ∉ ws
  | Entry.cred id note =>
    id ≠ [] ∧ ',' ∉ id ∧ '\n' ∉ id ∧ edgeFree id ∧ (∀ n, note = some n → '\n' ∉ n)

/-- The file written from a list of lines, each ended by a line feed. -/
def renderLines : List Entry → List Char
  | [] => []
  | e :: es => e.text ++ '\n' :: renderLines es

/-- The credentials of a list of lines, in order. -/
def idsOf : List Entry → List (List Char)
  | [] => []
  | Entry.blank _ :: es => idsOf es
  | Entry.cred id _ :: es => id :: idsOf es

/-! ## Observations on outcomes and traces -/

/-- The duties written to the solenoid pin, in order. -/
def solWrites : List Event → List Nat
  | [] => []
  | Event.sol d :: es => d :: solWrites es
  | _ :: es => solWrites es

/-- The file operations of a trace, in order. -/
def fileEvents : List Event → List Event
  | [] => []
  | Event.fopen p m ok :: es => Event.fopen p m ok :: fileEvents es
  | Event.fprint p t :: es => Event.fprint p t :: fileEvents es
  | _ :: es => fileEvents es

/-- The state in which `setup` ends or halts. -/
def outcomeState : Outcome → State
  | Outcome.running s => s
  | Outcome.halted _ s => s

/-- The startup error of an outcome, if any. -/
def outcomeError : Outcome → Option InitError
  | Outcome.running _ => none
  | Outcome.halted err _ => some err

/-- Whether the log file holds data before startup touches it. -/
def logHasData (b : Boot) : Bool :=
  match b.log_file with
  | none => false
  | some c => decide (c.length > 0)

/-- The first of the five startup steps that fails, in the order of section 7 of the
specification: reader identity, storage init, boot-counter persist, audit-log
header, credential-list load. -/
def firstFailure (b : Boot) : Option InitError :=
  if b.versiondata = 0 then some InitError.RFID_INIT
  else if b.sd_ok = false then some InitError.SD_INIT
  else if b.boot_write_ok = false then some InitError.BOOT_ID
  else if logHasData b = false ∧ b.log_append_ok = false then some InitError.LOG_HEADER
  else if b.id_file = none then some InitError.IDLIST
  else none

/-- The safety invariant of the control loop: the output is off or at weak hold,
and it is powered only while unlocking. -/
def SolenoidSafe (s : State) : Prop :=
  (s.sol = 0 ∨ s.sol = 25) ∧ (s.sol ≠ 0 → s.unlocking_active = true)

/-- The second state is reached from the first without a write to the solenoid:
same output, same unlocking flag, and the trace only grew by effects that are
not solenoid writes. -/
def SameSol (s t : State) : Prop :=
  t.sol = s.sol ∧ t.unlocking_active = s.unlocking_active ∧
    ∃ l, t.trace = s.trace ++ l ∧ solWrites l = []

/-- The two operations of the firmware on the audit log. -/
inductive LogOp
  | ensure (append_ok : Bool)
  | record (dt_open : Nat) (open_ok : Bool) (uid : List Char)

/-- One operation on the audit log: `ensureLogHeader()` of a startup, or
`recordLog(uid)` of an authorized read. -/
def runLogOp : LogOp → State → State
  | LogOp.ensure ok, s => (ensureLogHeader ok s).2
  | LogOp.record dt ok uid, s => (recordLog dt ok uid s).2

/-- A sequence of operations on the audit log, in order. -/
def runLogOps : List LogOp → State → State
  | [], s => s
  | op :: ops, s => runLogOps ops (runLogOp op s)

/-- How many times the header line was printed to the log file. -/
def headerWrites : List Event → Nat
  | [] => 0
  | Event.fprint Path.log t :: es => (if t = logHeader then 1 else 0) + headerWrites es
  | _ :: es => headerWrites es

/-- The log file is absent or empty. -/
def logEmpty (s : State) : Prop := s.log_file = none ∨ s.log_file = some []

/-! ## Concrete inputs used by the worked examples -/

/-- An idle controller one minute after reset: session 7, one enrolled card,
a log holding only the header. -/
def idleState : State :=
  { id_list := ["04a1b2c3".toList], last_uid := [], last_uid_ms := 0, boot_id := 7,
    unlocking_active := false, unlock_start_ms := 0,
    sol := 0, led := (0, 70, 0), clock_us := 60000000,
    boot_file := some "7\n".toList, log_file := some logHeader,
    id_file := some "04a1b2c3,Alice\n".toList, trace := [] }

/-- The same controller one second into an unlock started at 59000 ms. -/
def unlockingState : State :=
  { idleState with unlocking_active := true, unlock_start_ms := 59000, sol := 25,
                   last_uid := "04a1b2c3".toList, last_uid_ms := 58700 }

/-- A pass of the loop in which the reader reports the given tag bytes, the door
is locked, nothing takes time and the log can be opened. -/
def cardEnv (bytes : List (Fin 256)) : Env :=
  { dt_pre := 0, door_led := true, door_upd := true, dt_card := 0,
    card_ok := true, card_uid := bytes, dt_log := 0, log_open := true }

/-- A pass of the loop in which no tag is in the field. -/
def noCardEnv (locked : Bool) : Env :=
  { dt_pre := 0, door_led := locked, door_upd := locked, dt_card := 0,
    card_ok := false, card_uid := [], dt_log := 0, log_open := true }

/-- The card read of this pass is a denied one: a tag is read, its id is not in
the list, and the cooldown does not suppress it. -/
def deniedRead (e : Env) (s : State) : Prop :=
  readCardUID e.card_ok e.card_uid ≠ [] ∧
  isAuthorized s.id_list (readCardUID e.card_ok e.card_uid) = false ∧
  ¬ (readCardUID e.card_ok e.card_uid = s.last_uid ∧
      subU64 (nowMs (preCard e s)) s.last_uid_ms < 2000)

/-- A first-ever start: no boot counter and no log on the volume, a credential
list with one card, every step succeeding; the solenoid was left powered. -/
def firstBoot : Boot :=
  { sol0 := 255, led0 := (0, 0, 0), clock0 := 0, versiondata := 838926849, sd_ok := true,
    boot_file := none, log_file := none, id_file := some "04a1b2c3,Alice\n".toList,
    boot_write_ok := true, log_append_ok := true, door := true }

/-- A start in which the reader does not answer. -/
def deadReaderBoot : Boot := { firstBoot with versiondata := 0 }

/-- A line from which `strtol` can read no number: after leading white space and
an optional sign there is no decimal digit. -/
def unparseable (l : List Char) : Prop :=
  match l.dropWhile isspace with
  | [] => True
  | c :: r =>
    if c = '-' ∨ c = '+' then
      (match r with
        | [] => True
        | d :: _ => isdigit d = false)
    else isdigit c = false

/-- A start on a volume whose boot counter holds the text "-1". -/
def minusOneBoot : Boot := { firstBoot with boot_file := some "-1\n".toList }

/-! ## Theorems -/

theorem loop_eq (e : Env) (s : State) :
    loop e s =
      if (readCardUID e.card_ok e.card_uid).length > 0 then
        (if (handleCard e (readCardUID e.card_ok e.card_uid) (preCard e s)).2
          then (handleCard e (readCardUID e.card_ok e.card_uid) (preCard e s)).1
          else delay 10 (handleCard e (readCardUID e.card_ok e.card_uid) (preCard e s)).1)
      else delay 10 (preCard e s) := rfl

/-- C2: a read of the id equal to `last_uid` less than 2000 ms after `last_uid_ms`
is a no-op in `loop()`: the handling returns at once, having only waited 50 ms;
every global, the solenoid output and the log file are unchanged, and nothing
but that wait is added to the trace, whatever the credential list holds. -/
theorem C2_cooldown_noop (e : Env) (uid : List Char) (s : State)
    (hsame : uid = s.last_uid) (hrecent : subU64 (nowMs s) s.last_uid_ms < 2000) :
    handleCard e uid s =
      ({ s with clock_us := s.clock_us + 50000, trace := s.trace ++ [Event.delay 50] }, true) := by
  simp [handleCard, hsame, kCardCooldownMs, hrecent, delay, emit]

theorem C2_cooldown_noop_witness :
    handleCard (cardEnv [4, 161, 178, 195]) "04a1b2c3".toList
        { unlockingState with clock_us := 60200000 } =
      ({ unlockingState with clock_us := 60250000, trace := [Event.delay 50] }, true) :=
  C2_cooldown_noop (cardEnv [4, 161, 178, 195]) "04a1b2c3".toList
    { unlockingState with clock_us := 60200000 } (by decide) (by decide)

/-- Handling of a read that is neither authorized nor suppressed, written out. -/
theorem handleCard_denied (e : Env) (uid : List Char) (s : State)
    (hdeny : isAuthorized s.id_list uid = false)
    (hfresh : ¬ (uid = s.last_uid ∧ subU64 (nowMs s) s.last_uid_ms < 2000)) :
    handleCard e uid s =
      ({ s with last_uid := uid, last_uid_ms := nowMs s, led := (70, 0, 0), sol := 0,
                clock_us := s.clock_us + 1000000,
                trace := s.trace ++ [Event.led 70 0 0, Event.delay 1000, Event.sol 0] }, false) := by
  have h2 : ¬ (uid = s.last_uid ∧ subU64 (nowMs s) s.last_uid_ms < kCardCooldownMs) := hfresh
  simp only [handleCard, if_neg h2, hdeny]
  simp [lockSolenoid, analogWrite, delay, setLED, emit, kUnauthorizedHoldMs, LED_INTENSITY, PWM_OFF]

/-- C4: a read of an id that is not in the list and is not suppressed by the
cooldown sets the indicator to red (70,0,0), waits exactly 1000 ms, then writes
0 to the solenoid; the log file, `unlocking_active` and `unlock_start_ms` are
unchanged (only `last_uid`, `last_uid_ms`, the colour, the output, the clock and
the trace differ from the state before). -/
theorem C4_denied (e : Env) (uid : List Char) (s : State)
    (hdeny : isAuthorized s.id_list uid = false)
    (hfresh : ¬ (uid = s.last_uid ∧ subU64 (nowMs s) s.last_uid_ms < 2000)) :
    handleCard e uid s =
      ({ s with last_uid := uid, last_uid_ms := nowMs s, led := (70, 0, 0), sol := 0,
                clock_us := s.clock_us + 1000000,
                trace := s.trace ++ [Event.led 70 0 0, Event.delay 1000, Event.sol 0] }, false) := by
  exact handleCard_denied e uid s hdeny hfresh

theorem C4_denied_witness :
    handleCard (cardEnv [255, 255, 255, 255]) "ffffffff".toList unlockingState =
      ({ unlockingState with
          last_uid := "ffffffff".toList, last_uid_ms := 60000,
          led := (70, 0, 0), sol := 0, clock_us := 61000000,
          trace := [Event.led 70 0 0, Event.delay 1000, Event.sol 0] }, false) :=
  C4_denied (cardEnv [255, 255, 255, 255]) "ffffffff".toList unlockingState (by decide) (by decide)

/-- C6: a call of `updateUnlockState` while unlocking with elapsed >= 5000:
if the door reads unlocked or elapsed >= 10000, 0 is written to the solenoid and
`unlocking_active` becomes false; if the door reads locked and elapsed < 10000
the state is unchanged; so the cut happens exactly in the first case. -/
theorem C6_cutoff (locked : Bool) (s : State) (hact : s.unlocking_active = true)
    (hel : 5000 ≤ subU64 (nowMs s) s.unlock_start_ms) :
    ((locked = false ∨ 10000 ≤ subU64 (nowMs s) s.unlock_start_ms) →
        updateUnlockState locked s =
          { s with sol := 0, unlocking_active := false, trace := s.trace ++ [Event.sol 0] }) ∧
    ((locked = true ∧ subU64 (nowMs s) s.unlock_start_ms < 10000) →
        updateUnlockState locked s = s) ∧
    ((updateUnlockState locked s).unlocking_active = false ↔
        (locked = false ∨ 10000 ≤ subU64 (nowMs s) s.unlock_start_ms)) := by
  have h1 : ¬ subU64 (nowMs s) s.unlock_start_ms < 5000 := by omega
  have e1 : ∀ c : Bool, c = false ∨ 10000 ≤ subU64 (nowMs s) s.unlock_start_ms →
      updateUnlockState c s =
        { s with sol := 0, unlocking_active := false, trace := s.trace ++ [Event.sol 0] } := by
    intro c hc
    rcases hc with hc | hc
    · simp [updateUnlockState, hact, kUnlockHoldMs, h1, hc, lockSolenoid, analogWrite, emit, PWM_OFF]
    · cases c <;>
        simp [updateUnlockState, hact, kUnlockHoldMs, h1, hc, lockSolenoid, analogWrite, emit,
          PWM_OFF, U32]
  have e2 : ∀ c : Bool, c = true ∧ subU64 (nowMs s) s.unlock_start_ms < 10000 →
      updateUnlockState c s = s := by
    intro c hc
    have h3 : ¬ 10000 ≤ subU64 (nowMs s) s.unlock_start_ms := by omega
    simp [updateUnlockState, hact, kUnlockHoldMs, h1, hc.1, U32, h3]
  refine ⟨e1 locked, e2 locked, ?_⟩
  constructor
  · intro h
    by_contra hn
    have hl : locked = true ∧ subU64 (nowMs s) s.unlock_start_ms < 10000 := by
      constructor
      · cases locked <;> simp_all
      · omega
    rw [e2 locked hl] at h
    rw [hact] at h
    exact Bool.noConfusion h
  · intro h
    rw [e1 locked h]

theorem C6_cutoff_witness :
    ((true = false ∨ 10000 ≤ subU64 (nowMs { unlockingState with clock_us := 69000000 }) 59000) →
        updateUnlockState true { unlockingState with clock_us := 69000000 } =
          { unlockingState with
              clock_us := 69000000, sol := 0, unlocking_active := false,
              trace := [Event.sol 0] }) ∧
    ((true = true ∧ subU64 (nowMs { unlockingState with clock_us := 69000000 }) 59000 < 10000) →
        updateUnlockState true { unlockingState with clock_us := 69000000 } =
          { unlockingState with clock_us := 69000000 }) ∧
    ((updateUnlockState true { unlockingState with clock_us := 69000000 }).unlocking_active = false ↔
        (true = false ∨ 10000 ≤ subU64 (nowMs { unlockingState with clock_us := 69000000 }) 59000)) :=
  C6_cutoff true { unlockingState with clock_us := 69000000 } rfl (by decide)

/-- Handling of an authorized read that the cooldown does not suppress, written out. -/
theorem handleCard_authorized (e : Env) (uid : List Char) (s : State)
    (hauth : isAuthorized s.id_list uid = true)
    (hfresh : ¬ (uid = s.last_uid ∧ subU64 (nowMs s) s.last_uid_ms < 2000)) :
    handleCard e uid s =
      ((recordLog e.dt_log e.log_open uid
          { s with last_uid := uid, last_uid_ms := nowMs s, sol := 25, unlocking_active := true,
                   unlock_start_ms := (s.clock_us + 300000) % U64 / 1000,
                   clock_us := s.clock_us + 300000,
                   trace := s.trace ++ [Event.sol 255, Event.delay 300, Event.sol 25] }).2,
        false) := by
  have h2 : ¬ (uid = s.last_uid ∧ subU64 (nowMs s) s.last_uid_ms < kCardCooldownMs) := hfresh
  simp only [handleCard, if_neg h2, hauth]
  simp [unlockSolenoid, analogWrite, delay, emit, PWM_STRONG_ON, PWM_WEAK_ON, nowMs]

/-- The state in which the card is handled when the controller was idle. -/
theorem preCard_idle (e : Env) (s : State) (hidle : s.unlocking_active = false) :
    preCard e s =
      { s with clock_us := s.clock_us + e.dt_pre + e.dt_card,
               led := (0, (if e.door_led then 70 else 0), (if e.door_led then 0 else 70)),
               trace := s.trace ++
                 [Event.led 0 (if e.door_led then 70 else 0) (if e.door_led then 0 else 70)] } := by
  cases hd : e.door_led <;>
    simp [preCard, tick, updateUnlockState, showLockStatusLED, setLED, emit, hidle, hd,
      LED_INTENSITY]

/-- C3: an authorized id presented while idle and not suppressed by the cooldown:
one pass of `loop` writes 255 to the solenoid, waits 300 ms, writes 25, and ends
with the output at 25 and `unlocking_active` true; when the log can be opened
its new content is the old content followed by exactly one line
`boot_id,<clock>,<id>` and otherwise the log is unchanged. -/
theorem C3_authorized_unlock (e : Env) (s : State)
    (hidle : s.unlocking_active = false)
    (hcard : readCardUID e.card_ok e.card_uid ≠ [])
    (hauth : isAuthorized s.id_list (readCardUID e.card_ok e.card_uid) = true)
    (hfresh : ¬ (readCardUID e.card_ok e.card_uid = s.last_uid ∧
        subU64 (nowMs (preCard e s)) s.last_uid_ms < 2000)) :
    (loop e s).trace = s.trace ++
        [Event.led 0 (if e.door_led then 70 else 0) (if e.door_led then 0 else 70),
         Event.sol 255, Event.delay 300, Event.sol 25, Event.led 70 0 70,
         Event.fopen Path.log Mode.a e.log_open] ++
        (if e.log_open then
          [Event.fprint Path.log
            (utoa s.boot_id 10 ++ [','] ++
              utoa ((s.clock_us + e.dt_pre + e.dt_card + 300000 + e.dt_log) % U64 / 1000 % U32) 10 ++
              [','] ++ readCardUID e.card_ok e.card_uid ++ ['\n']),
           Event.delay 300]
         else []) ++
        [Event.delay 10] ∧
    (loop e s).sol = 25 ∧
    (loop e s).unlocking_active = true ∧
    (e.log_open = true → (loop e s).log_file = some (s.log_file.getD [] ++
        (utoa s.boot_id 10 ++ [','] ++
          utoa ((s.clock_us + e.dt_pre + e.dt_card + 300000 + e.dt_log) % U64 / 1000 % U32) 10 ++
          [','] ++ readCardUID e.card_ok e.card_uid ++ ['\n']))) ∧
    (e.log_open = false → (loop e s).log_file = s.log_file) := by
  have hlen : (readCardUID e.card_ok e.card_uid).length > 0 := List.length_pos.mpr hcard
  have hp := preCard_idle e s hidle
  have hauth2 : isAuthorized (preCard e s).id_list (readCardUID e.card_ok e.card_uid) = true := by
    rw [hp]; exact hauth
  have hfresh2 : ¬ (readCardUID e.card_ok e.card_uid = (preCard e s).last_uid ∧
      subU64 (nowMs (preCard e s)) (preCard e s).last_uid_ms < 2000) := by
    rw [hp] at hfresh ⊢; exact hfresh
  have hh := handleCard_authorized e _ _ hauth2 hfresh2
  rw [loop_eq, if_pos hlen, hh]
  rw [hp]
  cases hl : e.log_open <;>
    simp [recordLog, setLED, tick, emit, delay, nowMs, LED_INTENSITY, kLogHoldMs, hl,
      Nat.add_assoc]

theorem C3_authorized_unlock_witness :
    readCardUID true [4, 161, 178, 195] = "04a1b2c3".toList ∧
    (loop (cardEnv [4, 161, 178, 195]) idleState).sol = 25 ∧
    (loop (cardEnv [4, 161, 178, 195]) idleState).unlocking_active = true ∧
    (loop (cardEnv [4, 161, 178, 195]) idleState).log_file =
      some "boot_id,elapsed_ms,uid\n7,60300,04a1b2c3\n".toList ∧
    (loop (cardEnv [4, 161, 178, 195]) idleState).trace =
      [Event.led 0 70 0, Event.sol 255, Event.delay 300, Event.sol 25, Event.led 70 0 70,
       Event.fopen Path.log Mode.a true,
       Event.fprint Path.log "7,60300,04a1b2c3\n".toList, Event.delay 300, Event.delay 10] := by
  have h := C3_authorized_unlock (cardEnv [4, 161, 178, 195]) idleState rfl
    (by decide) (by decide) (by decide)
  refine ⟨by decide, h.2.1, h.2.2.1, ?_, ?_⟩
  · rw [h.2.2.2.1 rfl]; decide
  · rw [h.1]; decide

/-- C7: a non-empty id that differs from `last_uid`, or equals it 2000 ms or more
after `last_uid_ms`, is handled as a fresh read: `last_uid` becomes the id,
`last_uid_ms` the time of the read, and the whole resulting state (solenoid,
unlocking state, log, trace) is the one reached from the same state with no
previously seen credential (`last_uid` empty, `last_uid_ms` 0). -/
theorem C7_fresh_read (e : Env) (uid : List Char) (s : State) (hne : uid ≠ [])
    (hfresh : uid ≠ s.last_uid ∨ 2000 ≤ subU64 (nowMs s) s.last_uid_ms) :
    (handleCard e uid s).1.last_uid = uid ∧
    (handleCard e uid s).1.last_uid_ms = nowMs s ∧
    (handleCard e uid s).2 = false ∧
    handleCard e uid s = handleCard e uid { s with last_uid := [], last_uid_ms := 0 } := by
  have h2 : ¬ (uid = s.last_uid ∧ subU64 (nowMs s) s.last_uid_ms < 2000) := by
    intro h
    rcases hfresh with hf | hf
    · exact hf h.1
    · omega
  have h0 : ¬ (uid = ({ s with last_uid := [], last_uid_ms := 0 } : State).last_uid ∧
      subU64 (nowMs { s with last_uid := [], last_uid_ms := 0 })
        ({ s with last_uid := [], last_uid_ms := 0 } : State).last_uid_ms < 2000) :=
    fun h => hne h.1
  cases ha : isAuthorized s.id_list uid
  · have ha0 : isAuthorized ({ s with last_uid := [], last_uid_ms := 0 } : State).id_list uid
        = false := ha
    rw [handleCard_denied e uid s ha h2,
      handleCard_denied e uid { s with last_uid := [], last_uid_ms := 0 } ha0 h0]
    simp [nowMs]
  · have ha0 : isAuthorized ({ s with last_uid := [], last_uid_ms := 0 } : State).id_list uid
        = true := ha
    rw [handleCard_authorized e uid s ha h2,
      handleCard_authorized e uid { s with last_uid := [], last_uid_ms := 0 } ha0 h0]
    cases hl : e.log_open <;> simp [nowMs, recordLog, setLED, tick, emit, delay, hl]

theorem C7_fresh_read_witness :
    (handleCard (cardEnv [4, 161, 178, 195]) "04a1b2c3".toList
        { unlockingState with clock_us := 60700000 }).1.last_uid = "04a1b2c3".toList ∧
    (handleCard (cardEnv [4, 161, 178, 195]) "04a1b2c3".toList
        { unlockingState with clock_us := 60700000 }).1.last_uid_ms =
      nowMs { unlockingState with clock_us := 60700000 } ∧
    (handleCard (cardEnv [4, 161, 178, 195]) "04a1b2c3".toList
        { unlockingState with clock_us := 60700000 }).2 = false ∧
    handleCard (cardEnv [4, 161, 178, 195]) "04a1b2c3".toList
        { unlockingState with clock_us := 60700000 } =
      handleCard (cardEnv [4, 161, 178, 195]) "04a1b2c3".toList
        { { unlockingState with clock_us := 60700000 } with last_uid := [], last_uid_ms := 0 } :=
  C7_fresh_read (cardEnv [4, 161, 178, 195]) "04a1b2c3".toList
    { unlockingState with clock_us := 60700000 } (by decide) (Or.inr (by decide))

/-- C17: when the log cannot be opened `recordLog` returns false and leaves the log
file as it was, and an authorized read handled with the open failing ends with
the same solenoid output (25), `unlocking_active` (true), `unlock_start_ms`,
`last_uid` and `last_uid_ms` as with the open succeeding; in both cases the
handling does not leave `loop` early. -/
theorem C17_log_failure_nonfatal (e : Env) (uid : List Char) (s : State)
    (hauth : isAuthorized s.id_list uid = true)
    (hfresh : ¬ (uid = s.last_uid ∧ subU64 (nowMs s) s.last_uid_ms < 2000)) :
    (∀ t : State, (recordLog e.dt_log false uid t).1 = false ∧
        (recordLog e.dt_log false uid t).2.log_file = t.log_file) ∧
    (handleCard { e with log_open := false } uid s).1.log_file = s.log_file ∧
    (handleCard { e with log_open := false } uid s).1.sol = 25 ∧
    (handleCard { e with log_open := false } uid s).1.unlocking_active = true ∧
    (handleCard { e with log_open := false } uid s).1.sol =
      (handleCard { e with log_open := true } uid s).1.sol ∧
    (handleCard { e with log_open := false } uid s).1.unlocking_active =
      (handleCard { e with log_open := true } uid s).1.unlocking_active ∧
    (handleCard { e with log_open := false } uid s).1.unlock_start_ms =
      (handleCard { e with log_open := true } uid s).1.unlock_start_ms ∧
    (handleCard { e with log_open := false } uid s).1.last_uid =
      (handleCard { e with log_open := true } uid s).1.last_uid ∧
    (handleCard { e with log_open := false } uid s).1.last_uid_ms =
      (handleCard { e with log_open := true } uid s).1.last_uid_ms ∧
    (handleCard { e with log_open := false } uid s).2 = false ∧
    (handleCard { e with log_open := true } uid s).2 = false := by
  rw [handleCard_authorized { e with log_open := false } uid s hauth hfresh,
    handleCard_authorized { e with log_open := true } uid s hauth hfresh]
  simp [recordLog, setLED, tick, emit, delay]

theorem C17_log_failure_nonfatal_witness :
    (handleCard { cardEnv [4, 161, 178, 195] with log_open := false }
        "04a1b2c3".toList idleState).1.log_file = some logHeader ∧
    (handleCard { cardEnv [4, 161, 178, 195] with log_open := false }
        "04a1b2c3".toList idleState).1.sol = 25 ∧
    (handleCard { cardEnv [4, 161, 178, 195] with log_open := false }
        "04a1b2c3".toList idleState).1.unlock_start_ms =
      (handleCard { cardEnv [4, 161, 178, 195] with log_open := true }
        "04a1b2c3".toList idleState).1.unlock_start_ms :=
  have h := C17_log_failure_nonfatal (cardEnv [4, 161, 178, 195]) "04a1b2c3".toList idleState
    (by decide) (by decide)
  ⟨h.2.1, h.2.2.1, h.2.2.2.2.2.2.1⟩

/-- The state in which the card is handled during phase 1 of an unlock. -/
theorem preCard_phase1 (e : Env) (s : State) (hact : s.unlocking_active = true)
    (hel : subU64 (nowMs (tick e.dt_pre s)) s.unlock_start_ms < 5000) :
    preCard e s =
      { s with clock_us := s.clock_us + e.dt_pre + e.dt_card,
               led := (0, (if e.door_led then 70 else 0), (if e.door_led then 0 else 70)),
               trace := s.trace ++
                 [Event.led 0 (if e.door_led then 70 else 0) (if e.door_led then 0 else 70)] } := by
  have h1 : subU64 ((s.clock_us + e.dt_pre) % U64 / 1000) s.unlock_start_ms < 5000 := hel
  cases hd : e.door_led <;>
    simp [preCard, tick, updateUnlockState, showLockStatusLED, setLED, emit, hact, hd,
      LED_INTENSITY, nowMs, kUnlockHoldMs, h1]

/-- C5 (as stated, refuted): one second into an unlock, with the output at weak hold
and elapsed below 5000 ms before and after the pass, a denied card makes `loop`
write 0 to the solenoid. -/
theorem C5_counterexample :
    unlockingState.unlocking_active = true ∧ unlockingState.sol = 25 ∧
    subU64 (nowMs unlockingState) unlockingState.unlock_start_ms < 5000 ∧
    readCardUID true [255, 255, 255, 255] = "ffffffff".toList ∧
    isAuthorized unlockingState.id_list "ffffffff".toList = false ∧
    subU64 (nowMs (loop (cardEnv [255, 255, 255, 255]) unlockingState))
      (loop (cardEnv [255, 255, 255, 255]) unlockingState).unlock_start_ms < 5000 ∧
    (loop (cardEnv [255, 255, 255, 255]) unlockingState).sol = 0 := by
  decide

/-- C5 (amended): a pass of `loop` that starts while unlocking, with the output at
weak hold and elapsed below 5000 ms when `updateUnlockState` reads the clock,
ends with the output still at 25 whatever the door switch reads, when the
reader gives no tag, a cooled-down id or an authorized id; when the read is a
denied one the output ends at 0 with `unlocking_active` still true. -/
theorem C5_phase1_hold (e : Env) (s : State)
    (hact : s.unlocking_active = true) (hsol : s.sol = 25)
    (hel : subU64 (nowMs (tick e.dt_pre s)) s.unlock_start_ms < 5000) :
    (¬ deniedRead e s → (loop e s).sol = 25 ∧ (loop e s).unlocking_active = true) ∧
    (deniedRead e s → (loop e s).sol = 0 ∧ (loop e s).unlocking_active = true) := by
  have hp := preCard_phase1 e s hact hel
  have hid : (preCard e s).id_list = s.id_list := by rw [hp]
  have hlu : (preCard e s).last_uid = s.last_uid := by rw [hp]
  have hlm : (preCard e s).last_uid_ms = s.last_uid_ms := by rw [hp]
  by_cases hlen : (readCardUID e.card_ok e.card_uid).length > 0
  · have hne : readCardUID e.card_ok e.card_uid ≠ [] := List.length_pos.mp hlen
    by_cases hcool : readCardUID e.card_ok e.card_uid = s.last_uid ∧
        subU64 (nowMs (preCard e s)) s.last_uid_ms < 2000
    · have hc2 : readCardUID e.card_ok e.card_uid = (preCard e s).last_uid ∧
          subU64 (nowMs (preCard e s)) (preCard e s).last_uid_ms < 2000 := by
        rw [hlu, hlm]; exact hcool
      have hh : handleCard e (readCardUID e.card_ok e.card_uid) (preCard e s) =
          (delay 50 (preCard e s), true) := by
        have h3 : readCardUID e.card_ok e.card_uid = (preCard e s).last_uid ∧
            subU64 (nowMs (preCard e s)) (preCard e s).last_uid_ms < kCardCooldownMs := hc2
        simp only [handleCard, if_pos h3]
      constructor
      · intro _
        rw [loop_eq, if_pos hlen, hh, hp]
        simp [delay, emit, hsol, hact]
      · intro hd
        exact absurd hcool hd.2.2
    · have hc2 : ¬ (readCardUID e.card_ok e.card_uid = (preCard e s).last_uid ∧
          subU64 (nowMs (preCard e s)) (preCard e s).last_uid_ms < 2000) := by
        rw [hlu, hlm]; exact hcool
      cases ha : isAuthorized s.id_list (readCardUID e.card_ok e.card_uid)
      · have ha2 : isAuthorized (preCard e s).id_list (readCardUID e.card_ok e.card_uid)
            = false := by rw [hid]; exact ha
        have hh := handleCard_denied e _ _ ha2 hc2
        constructor
        · intro hnd
          exact absurd ⟨hne, ha, hcool⟩ hnd
        · intro _
          rw [loop_eq, if_pos hlen, hh, hp]
          simp [delay, emit, hact]
      · have ha2 : isAuthorized (preCard e s).id_list (readCardUID e.card_ok e.card_uid)
            = true := by rw [hid]; exact ha
        have hh := handleCard_authorized e _ _ ha2 hc2
        constructor
        · intro _
          rw [loop_eq, if_pos hlen, hh]
          cases hl : e.log_open <;> simp [recordLog, setLED, tick, emit, delay, hl]
        · intro hd
          have hd2 := hd.2.1
          rw [ha] at hd2
          exact Bool.noConfusion hd2
  · constructor
    · intro _
      rw [loop_eq, if_neg hlen, hp]
      simp [delay, emit, hsol, hact]
    · intro hd
      exact absurd (List.length_pos.mpr hd.1) hlen

theorem C5_phase1_hold_witness :
    (¬ deniedRead (noCardEnv false) unlockingState →
        (loop (noCardEnv false) unlockingState).sol = 25 ∧
        (loop (noCardEnv false) unlockingState).unlocking_active = true) ∧
    (deniedRead (noCardEnv false) unlockingState →
        (loop (noCardEnv false) unlockingState).sol = 0 ∧
        (loop (noCardEnv false) unlockingState).unlocking_active = true) :=
  C5_phase1_hold (noCardEnv false) unlockingState rfl rfl (by decide)

/-- C8 (as stated, refuted): after an authorized read at 60000 ms, `last_uid_ms` is
60000 while `unlock_start_ms` is 60300 and the audit line carries 60300. -/
theorem C8_counterexample :
    (loop (cardEnv [4, 161, 178, 195]) idleState).last_uid_ms = 60000 ∧
    (loop (cardEnv [4, 161, 178, 195]) idleState).unlock_start_ms = 60300 ∧
    (loop (cardEnv [4, 161, 178, 195]) idleState).unlock_start_ms ≠
      (loop (cardEnv [4, 161, 178, 195]) idleState).last_uid_ms ∧
    (loop (cardEnv [4, 161, 178, 195]) idleState).log_file =
      some "boot_id,elapsed_ms,uid\n7,60300,04a1b2c3\n".toList := by
  decide

/-- C8 (amended): on an authorized read handled when the clock reads `now`,
`last_uid_ms` is `now`; `unlock_start_ms` is the clock read after the 300 ms
strong pulse, which is `last_uid_ms + 300` unless the 64-bit counter wraps; and
the elapsed field of the audit line is the clock read in `recordLog` after the
log was opened, reduced modulo 2^32. -/
theorem C8_start_after_pulse (e : Env) (uid : List Char) (s : State)
    (hauth : isAuthorized s.id_list uid = true)
    (hfresh : ¬ (uid = s.last_uid ∧ subU64 (nowMs s) s.last_uid_ms < 2000)) :
    (handleCard e uid s).1.last_uid_ms = nowMs s ∧
    (handleCard e uid s).1.unlock_start_ms = (s.clock_us + 300000) % U64 / 1000 ∧
    (s.clock_us + 300000 < U64 →
      (handleCard e uid s).1.unlock_start_ms = (handleCard e uid s).1.last_uid_ms + 300) ∧
    (e.log_open = true → (handleCard e uid s).1.log_file = some (s.log_file.getD [] ++
      (utoa s.boot_id 10 ++ [','] ++
        utoa ((s.clock_us + 300000 + e.dt_log) % U64 / 1000 % U32) 10 ++
        [','] ++ uid ++ ['\n']))) := by
  rw [handleCard_authorized e uid s hauth hfresh]
  have hmod : s.clock_us + 300000 < U64 →
      (s.clock_us + 300000) % U64 / 1000 = s.clock_us % U64 / 1000 + 300 := by
    intro h
    have h1 : s.clock_us + 300000 < 18446744073709551616 := h
    simp only [U64]
    omega
  cases hl : e.log_open <;>
    simp [recordLog, setLED, tick, emit, delay, nowMs, hl] <;> exact hmod

theorem C8_start_after_pulse_witness :
    (handleCard (cardEnv [4, 161, 178, 195]) "04a1b2c3".toList idleState).1.last_uid_ms
      = nowMs idleState ∧
    (handleCard (cardEnv [4, 161, 178, 195]) "04a1b2c3".toList idleState).1.unlock_start_ms
      = (idleState.clock_us + 300000) % U64 / 1000 :=
  have h := C8_start_after_pulse (cardEnv [4, 161, 178, 195]) "04a1b2c3".toList idleState
    (by decide) (by decide)
  ⟨h.1, h.2.1⟩

/-! ### Frame lemmas: what does not touch the solenoid -/

theorem solWrites_append (a b : List Event) : solWrites (a ++ b) = solWrites a ++ solWrites b := by
  induction a with
  | nil => rfl
  | cons e es ih => cases e <;> simp [solWrites, ih]

theorem fileEvents_append (a b : List Event) :
    fileEvents (a ++ b) = fileEvents a ++ fileEvents b := by
  induction a with
  | nil => rfl
  | cons e es ih => cases e <;> simp [fileEvents, ih]

theorem sameSol_of_eq (s t : State) (h1 : t.sol = s.sol)
    (h2 : t.unlocking_active = s.unlocking_active) (h3 : t.trace = s.trace) : SameSol s t :=
  ⟨h1, h2, [], by simp [h3], rfl⟩

theorem sameSol_refl (s : State) : SameSol s s := sameSol_of_eq s s rfl rfl rfl

theorem sameSol_trans (s t u : State) (h1 : SameSol s t) (h2 : SameSol t u) : SameSol s u := by
  obtain ⟨a1, a2, l1, a3, a4⟩ := h1
  obtain ⟨b1, b2, l2, b3, b4⟩ := h2
  refine ⟨b1.trans a1, b2.trans a2, l1 ++ l2, ?_, ?_⟩
  · rw [b3, a3, List.append_assoc]
  · rw [solWrites_append, a4, b4]; rfl

theorem sameSol_emit (e : Event) (he : solWrites [e] = []) (s : State) : SameSol s (emit e s) :=
  ⟨rfl, rfl, [e], rfl, he⟩

theorem sameSol_tick (us : Nat) (s : State) : SameSol s (tick us s) :=
  sameSol_of_eq _ _ rfl rfl rfl

theorem sameSol_delay (ms : Nat) (s : State) : SameSol s (delay ms s) :=
  ⟨rfl, rfl, [Event.delay ms], rfl, rfl⟩

theorem sameSol_setLED (r g b : Nat) (s : State) : SameSol s (setLED r g b s) :=
  ⟨rfl, rfl, [Event.led r g b], rfl, rfl⟩

theorem sameSol_blinkLED (r g b times on_ms off_ms : Nat) (s : State) :
    SameSol s (blinkLED r g b times on_ms off_ms s) := by
  induction times generalizing s with
  | zero => exact sameSol_refl s
  | succ k ih =>
    rw [blinkLED]
    refine sameSol_trans _ _ _ ?_ (ih _)
    exact sameSol_trans _ _ _ (sameSol_trans _ _ _ (sameSol_trans _ _ _ (sameSol_setLED r g b s)
      (sameSol_delay on_ms _)) (sameSol_setLED 0 0 0 _)) (sameSol_delay off_ms _)

theorem sameSol_showLockStatusLED (locked : Bool) (s : State) :
    SameSol s (showLockStatusLED locked s) := by
  cases locked <;> simp only [showLockStatusLED] <;> exact sameSol_setLED _ _ _ s

theorem sameSol_recordLog (dt : Nat) (ok : Bool) (uid : List Char) (s : State) :
    SameSol s (recordLog dt ok uid s).2 := by
  have h1 : SameSol s (emit (Event.fopen Path.log Mode.a ok)
      (tick dt (setLED LED_INTENSITY 0 LED_INTENSITY s))) :=
    sameSol_trans _ _ _ (sameSol_trans _ _ _ (sameSol_setLED _ _ _ s) (sameSol_tick dt _))
      (sameSol_emit _ (by rfl) _)
  cases ok
  · exact h1
  · refine sameSol_trans _ _ _ h1 ?_
    refine sameSol_trans _ _ _ (sameSol_trans _ _ _ ?_ (sameSol_emit _ (by rfl) _)) (sameSol_delay _ _)
    exact sameSol_of_eq _ _ rfl rfl rfl

theorem sameSol_readBootId (s : State) : SameSol s (readBootId s).2 := by
  unfold readBootId
  split
  · exact sameSol_emit _ (by rfl) s
  · exact sameSol_emit _ (by rfl) s

theorem sameSol_writeBootId (ok : Bool) (id : Nat) (s : State) :
    SameSol s (writeBootId ok id s).2 := by
  cases ok
  · exact sameSol_emit _ (by rfl) s
  · exact sameSol_trans _ _ _ (sameSol_trans _ _ _ (sameSol_emit _ (by rfl) s)
      (sameSol_of_eq _ _ rfl rfl rfl)) (sameSol_emit _ (by rfl) _)

theorem sameSol_ensureLogHeader (ok : Bool) (s : State) :
    SameSol s (ensureLogHeader ok s).2 := by
  have h1 : SameSol s (emit (Event.fopen Path.log Mode.r s.log_file.isSome) s) :=
    sameSol_emit _ (by rfl) s
  unfold ensureLogHeader
  simp only []
  split
  · exact h1
  · cases ok
    · exact sameSol_trans _ _ _ h1 (sameSol_emit _ (by rfl) _)
    · exact sameSol_trans _ _ _ h1 (sameSol_trans _ _ _ (sameSol_trans _ _ _ (sameSol_emit _ (by rfl) _)
        (sameSol_of_eq _ _ rfl rfl rfl)) (sameSol_emit _ (by rfl) _))

theorem sameSol_readIDListFromSD (s : State) : SameSol s (readIDListFromSD s).2 := by
  have hb : SameSol s (blinkLED LED_INTENSITY 0 LED_INTENSITY 2 120 120 { s with id_list := [] }) :=
    sameSol_trans s { s with id_list := [] } _ (sameSol_of_eq _ _ rfl rfl rfl)
      (sameSol_blinkLED _ _ _ _ _ _ _)
  unfold readIDListFromSD
  generalize blinkLED LED_INTENSITY 0 LED_INTENSITY 2 120 120 { s with id_list := [] } = B at hb
  simp only []
  split
  · exact sameSol_trans _ _ _ hb (sameSol_emit _ (by rfl) _)
  · exact sameSol_trans _ _ _ hb (sameSol_trans _ _ _ (sameSol_emit _ (by rfl) _)
      (sameSol_of_eq _ _ rfl rfl rfl))

theorem sameSol_initFailLoop (err : InitError) (rounds : Nat) (s : State) :
    SameSol s (initFailLoop err rounds s) := by
  induction rounds generalizing s with
  | zero => exact sameSol_refl s
  | succ k ih =>
    rw [initFailLoop]
    exact sameSol_trans _ _ _ (sameSol_trans _ _ _ (sameSol_blinkLED _ _ _ _ _ _ s)
      (sameSol_delay 1000 _)) (ih _)

theorem sameSol_setBootId (n : Nat) (s : State) : SameSol s { s with boot_id := n } :=
  sameSol_of_eq _ _ rfl rfl rfl

/-- After the first two effects of `setup` (indicator white, solenoid off) nothing
in `setup` writes to the solenoid, whichever way it ends. -/
theorem setup_sameSol (b : Boot) :
    SameSol (analogWrite PWM_OFF (setLED LED_INTENSITY LED_INTENSITY LED_INTENSITY (initState b)))
      (outcomeState (setup b)) := by
  have h2 : SameSol
      (analogWrite PWM_OFF (setLED LED_INTENSITY LED_INTENSITY LED_INTENSITY (initState b)))
      { (readBootId (analogWrite PWM_OFF
          (setLED LED_INTENSITY LED_INTENSITY LED_INTENSITY (initState b)))).2 with
        boot_id := ((readBootId (analogWrite PWM_OFF
          (setLED LED_INTENSITY LED_INTENSITY LED_INTENSITY (initState b)))).1 + 1) % U32 } :=
    sameSol_trans _ _ _ (sameSol_readBootId _) (sameSol_setBootId _ _)
  unfold setup
  simp only []
  split
  · exact sameSol_refl _
  · split
    · exact sameSol_refl _
    · split
      · simp only [outcomeState]
        exact sameSol_trans _ _ _ h2 (sameSol_writeBootId _ _ _)
      · split
        · simp only [outcomeState]
          refine sameSol_trans _ _ _ ?_ (sameSol_ensureLogHeader _ _)
          exact sameSol_trans _ _ _ h2 (sameSol_writeBootId _ _ _)
        · split
          · simp only [outcomeState]
            refine sameSol_trans _ _ _ ?_ (sameSol_readIDListFromSD _)
            refine sameSol_trans _ _ _ ?_ (sameSol_ensureLogHeader _ _)
            exact sameSol_trans _ _ _ h2 (sameSol_writeBootId _ _ _)
          · simp only [outcomeState]
            refine sameSol_trans _ _ _ ?_ (sameSol_showLockStatusLED _ _)
            refine sameSol_trans _ _ _ ?_ (sameSol_readIDListFromSD _)
            refine sameSol_trans _ _ _ ?_ (sameSol_ensureLogHeader _ _)
            exact sameSol_trans _ _ _ h2 (sameSol_writeBootId _ _ _)

/-- C18: whatever the solenoid output was before the reset and whichever way
startup goes, the trace of `setup` starts with the indicator set to white and 0
written to the solenoid, nothing after that writes to the solenoid, the output
is 0 and `unlocking_active` is false when `setup` returns or halts, and they
stay so through any number of rounds of the blink loop of a halted startup. -/
theorem C18_failsafe_off (b : Boot) :
    (∃ l, (outcomeState (setup b)).trace = [Event.led 70 70 70, Event.sol 0] ++ l ∧
        solWrites l = []) ∧
    (b.versiondata = 0 →
        (outcomeState (setup b)).trace = [Event.led 70 70 70, Event.sol 0]) ∧
    (outcomeState (setup b)).sol = 0 ∧
    (outcomeState (setup b)).unlocking_active = false ∧
    (∀ (err : InitError) (rounds : Nat),
        (initFailLoop err rounds (outcomeState (setup b))).sol = 0 ∧
        (initFailLoop err rounds (outcomeState (setup b))).unlocking_active = false ∧
        solWrites (initFailLoop err rounds (outcomeState (setup b))).trace = [0]) := by
  obtain ⟨h1, h2, l, h3, h4⟩ := setup_sameSol b
  have ht : (outcomeState (setup b)).trace = [Event.led 70 70 70, Event.sol 0] ++ l := by
    rw [h3]; rfl
  refine ⟨⟨l, ht, h4⟩, ?_, h1, h2, ?_⟩
  · intro hv
    simp [setup, hv, outcomeState, analogWrite, setLED, emit, initState, LED_INTENSITY, PWM_OFF]
  · intro err rounds
    obtain ⟨g1, g2, l2, g3, g4⟩ := sameSol_initFailLoop err rounds (outcomeState (setup b))
    refine ⟨g1.trans h1, g2.trans h2, ?_⟩
    rw [g3, ht, solWrites_append, solWrites_append, g4, h4]
    rfl

theorem C18_failsafe_off_witness :
    (outcomeState (setup deadReaderBoot)).trace = [Event.led 70 70 70, Event.sol 0] ∧
    firstBoot.sol0 = 255 ∧ (outcomeState (setup firstBoot)).sol = 0 :=
  ⟨(C18_failsafe_off deadReaderBoot).2.1 rfl, rfl, (C18_failsafe_off firstBoot).2.2.1⟩

/-! ### The loop keeps the solenoid safe -/

theorem solenoidSafe_of_sameSol (s t : State) (h : SameSol s t) (hs : SolenoidSafe s) :
    SolenoidSafe t := by
  obtain ⟨h1, h2, _⟩ := h
  unfold SolenoidSafe at *
  rw [h1, h2]
  exact hs

theorem solenoidSafe_of_off (s : State) (h : s.sol = 0) : SolenoidSafe s :=
  ⟨Or.inl h, fun hn => absurd h hn⟩

theorem updateUnlockState_safe (locked : Bool) (s : State) (hs : SolenoidSafe s) :
    SolenoidSafe (updateUnlockState locked s) := by
  unfold updateUnlockState
  simp only []
  split
  · exact hs
  · split
    · exact hs
    · split
      · exact solenoidSafe_of_off _ rfl
      · split
        · exact solenoidSafe_of_off _ rfl
        · exact hs

theorem handleCard_safe (e : Env) (uid : List Char) (s : State) (hs : SolenoidSafe s) :
    SolenoidSafe (handleCard e uid s).1 := by
  by_cases hc : uid = s.last_uid ∧ subU64 (nowMs s) s.last_uid_ms < 2000
  · have h3 : uid = s.last_uid ∧ subU64 (nowMs s) s.last_uid_ms < kCardCooldownMs := hc
    simp only [handleCard, if_pos h3]
    exact solenoidSafe_of_sameSol _ _ (sameSol_delay 50 s) hs
  · cases ha : isAuthorized s.id_list uid
    · rw [handleCard_denied e uid s ha hc]
      exact solenoidSafe_of_off _ rfl
    · rw [handleCard_authorized e uid s ha hc]
      refine solenoidSafe_of_sameSol _ _ (sameSol_recordLog _ _ _ _) ?_
      exact ⟨Or.inr rfl, fun _ => rfl⟩

theorem preCard_safe (e : Env) (s : State) (hs : SolenoidSafe s) : SolenoidSafe (preCard e s) := by
  unfold preCard
  refine solenoidSafe_of_sameSol _ _ (sameSol_tick _ _) ?_
  refine updateUnlockState_safe _ _ ?_
  refine solenoidSafe_of_sameSol _ _ (sameSol_showLockStatusLED _ _) ?_
  exact solenoidSafe_of_sameSol _ _ (sameSol_tick _ _) hs

theorem loop_safe (e : Env) (s : State) (hs : SolenoidSafe s) : SolenoidSafe (loop e s) := by
  rw [loop_eq]
  split
  · split
    · exact handleCard_safe _ _ _ (preCard_safe e s hs)
    · exact solenoidSafe_of_sameSol _ _ (sameSol_delay 10 _)
        (handleCard_safe _ _ _ (preCard_safe e s hs))
  · exact solenoidSafe_of_sameSol _ _ (sameSol_delay 10 _) (preCard_safe e s hs)

theorem reachable_safe (s : State) (h : Reachable s) : SolenoidSafe s := by
  induction h with
  | boot b s hb =>
    have h0 := (setup_sameSol b).1
    rw [hb] at h0
    exact solenoidSafe_of_off s h0
  | step e s _ ih => exact loop_safe e s ih

/-- C19: in every state the controller can be in between two passes of `loop()`
(the state `setup()` returns with, then any number of passes with arbitrary
clock advances, door readings and card reads) the solenoid output is 0 or 25,
never 255, and when it is not 0 `unlocking_active` is true. -/
theorem C19_solenoid_invariant (s : State) (h : Reachable s) :
    (s.sol = 0 ∨ s.sol = 25) ∧ s.sol ≠ 255 ∧ (s.sol ≠ 0 → s.unlocking_active = true) := by
  obtain ⟨h1, h2⟩ := reachable_safe s h
  refine ⟨h1, ?_, h2⟩
  rcases h1 with h1 | h1 <;> rw [h1] <;> decide

theorem C19_solenoid_invariant_witness :
    ((loop (cardEnv [4, 161, 178, 195]) (outcomeState (setup firstBoot))).sol = 0 ∨
      (loop (cardEnv [4, 161, 178, 195]) (outcomeState (setup firstBoot))).sol = 25) ∧
    (loop (cardEnv [4, 161, 178, 195]) (outcomeState (setup firstBoot))).sol ≠ 255 ∧
    ((loop (cardEnv [4, 161, 178, 195]) (outcomeState (setup firstBoot))).sol ≠ 0 →
      (loop (cardEnv [4, 161, 178, 195]) (outcomeState (setup firstBoot))).unlocking_active
        = true) :=
  C19_solenoid_invariant _
    (Reachable.step (cardEnv [4, 161, 178, 195]) (outcomeState (setup firstBoot))
      (Reachable.boot firstBoot (outcomeState (setup firstBoot)) (by decide)))

theorem blinkLED_two (r g b on_ms off_ms : Nat) (s : State) :
    blinkLED r g b 2 on_ms off_ms s =
      delay off_ms (setLED 0 0 0 (delay on_ms (setLED r g b
        (delay off_ms (setLED 0 0 0 (delay on_ms (setLED r g b s))))))) := rfl

theorem toInt_unparseable (l : List Char) (h : unparseable l) : toInt l = 0 := by
  unfold unparseable at h
  unfold toInt
  cases hd : l.dropWhile isspace with
  | nil => rfl
  | cons c r =>
    rw [hd] at h
    simp only [] at h ⊢
    by_cases h1 : c = '-'
    · simp only [h1, true_or, if_true] at h ⊢
      cases r with
      | nil => simp [strtolDigits, LONG_MIN]
      | cons d r2 =>
        simp only [] at h
        simp [strtolDigits, h, LONG_MIN]
    · by_cases h2 : c = '+'
      · simp only [h2, or_true, if_true] at h ⊢
        have h3 : ¬ ('+' = '-') := by decide
        simp only [h3, if_false]
        cases r with
        | nil => simp [strtolDigits, LONG_MAX]
        | cons d r2 =>
          simp only [] at h
          simp [strtolDigits, h, LONG_MAX]
      · have h3 : ¬ (c = '-' ∨ c = '+') := fun hh => hh.elim h1 h2
        simp only [h3, if_false] at h
        simp [h1, h2, strtolDigits, h, LONG_MAX]

theorem toUint32_lt (z : Int) : toUint32 z < U32 := by
  unfold toUint32 U32
  omega

theorem readBootId_lt (s : State) : (readBootId s).1 < U32 := by
  unfold readBootId
  split
  · simp [U32]
  · simp only []
    split
    · exact toUint32_lt _
    · simp [U32]

/-! ### The startup steps one by one -/

theorem fileEvents_blinkLED (r g b times on_ms off_ms : Nat) (s : State) :
    fileEvents (blinkLED r g b times on_ms off_ms s).trace = fileEvents s.trace ∧
    (blinkLED r g b times on_ms off_ms s).id_file = s.id_file := by
  induction times generalizing s with
  | zero => exact ⟨rfl, rfl⟩
  | succ k ih =>
    rw [blinkLED]
    obtain ⟨h1, h2⟩ := ih (delay off_ms (setLED 0 0 0 (delay on_ms (setLED r g b s))))
    rw [h1, h2]
    simp [delay, setLED, emit, fileEvents_append, fileEvents]

theorem readBootId_state (s : State) :
    (readBootId s).2 = emit (Event.fopen Path.bootid Mode.r s.boot_file.isSome) s := by
  unfold readBootId
  split <;> rename_i h <;> simp [h]

theorem writeBootId_fst (ok : Bool) (id : Nat) (s : State) : (writeBootId ok id s).1 = ok := by
  cases ok <;> rfl

theorem writeBootId_fileEvents (ok : Bool) (id : Nat) (s : State) :
    fileEvents (writeBootId ok id s).2.trace = fileEvents s.trace ++
      (Event.fopen Path.bootid Mode.w ok ::
        (if ok then [Event.fprint Path.bootid (utoa id 10 ++ ['\n'])] else [])) := by
  cases ok <;> simp [writeBootId, emit, fileEvents_append, fileEvents]

theorem writeBootId_frame (ok : Bool) (id : Nat) (s : State) :
    (writeBootId ok id s).2.log_file = s.log_file ∧
    (writeBootId ok id s).2.id_file = s.id_file ∧
    (writeBootId ok id s).2.boot_id = s.boot_id := by
  cases ok <;> simp [writeBootId, emit]

theorem ensureLogHeader_fst (ok : Bool) (s : State) :
    (ensureLogHeader ok s).1 =
      ((match s.log_file with
        | none => false
        | some c => decide (c.length > 0)) || ok) := by
  unfold ensureLogHeader
  simp only []
  split <;> rename_i h
  · simp [h]
  · cases ok <;> simp [h]

theorem ensureLogHeader_fileEvents (ok : Bool) (s : State) :
    fileEvents (ensureLogHeader ok s).2.trace = fileEvents s.trace ++
      (Event.fopen Path.log Mode.r s.log_file.isSome ::
        (if (match s.log_file with
            | none => false
            | some c => decide (c.length > 0)) then []
          else Event.fopen Path.log Mode.a ok ::
            (if ok then [Event.fprint Path.log logHeader] else []))) := by
  unfold ensureLogHeader
  simp only []
  split <;> rename_i h
  · simp [h, emit, fileEvents_append, fileEvents]
  · cases ok <;> simp [h, emit, fileEvents_append, fileEvents]

theorem ensureLogHeader_frame (ok : Bool) (s : State) :
    (ensureLogHeader ok s).2.id_file = s.id_file ∧
    (ensureLogHeader ok s).2.boot_id = s.boot_id ∧
    (ensureLogHeader ok s).2.boot_file = s.boot_file := by
  unfold ensureLogHeader
  simp only []
  split
  · simp [emit]
  · cases ok <;> simp [emit]

theorem readIDListFromSD_fst (s : State) : (readIDListFromSD s).1 = s.id_file.isSome := by
  have h := (fileEvents_blinkLED LED_INTENSITY 0 LED_INTENSITY 2 120 120 { s with id_list := [] }).2
  unfold readIDListFromSD
  generalize blinkLED LED_INTENSITY 0 LED_INTENSITY 2 120 120 { s with id_list := [] } = B at h
  simp only [] at h ⊢
  split <;> rename_i hf <;> rw [← h, hf] <;> rfl

theorem readIDListFromSD_fileEvents (s : State) :
    fileEvents (readIDListFromSD s).2.trace =
      fileEvents s.trace ++ [Event.fopen Path.idlist Mode.r s.id_file.isSome] ∧
    (readIDListFromSD s).2.boot_id = s.boot_id := by
  have h := fileEvents_blinkLED LED_INTENSITY 0 LED_INTENSITY 2 120 120 { s with id_list := [] }
  have hb : (blinkLED LED_INTENSITY 0 LED_INTENSITY 2 120 120 { s with id_list := [] }).boot_id
      = s.boot_id := by
    simp [blinkLED_two, delay, setLED, emit]
  unfold readIDListFromSD
  generalize blinkLED LED_INTENSITY 0 LED_INTENSITY 2 120 120 { s with id_list := [] } = B at h hb
  obtain ⟨h1, h2⟩ := h
  simp only [] at h1 h2 ⊢
  split <;> rename_i hf <;>
    simp [emit, fileEvents_append, fileEvents, h1, hb, ← h2, hf]

theorem showLockStatusLED_fileEvents (locked : Bool) (s : State) :
    fileEvents (showLockStatusLED locked s).trace = fileEvents s.trace ∧
    (showLockStatusLED locked s).boot_id = s.boot_id := by
  cases locked <;> simp [showLockStatusLED, setLED, emit, fileEvents_append, fileEvents]

theorem setup_outcomeError (b : Boot) : outcomeError (setup b) = firstFailure b := by
  obtain ⟨sol0, led0, clock0, v, sd, bf, lf, idf, bw, la, door⟩ := b
  by_cases hv : v = 0
  · simp [setup, firstFailure, outcomeError, hv]
  · cases sd
    · simp [setup, firstFailure, outcomeError, hv]
    · cases bw
      · simp [setup, firstFailure, outcomeError, hv, writeBootId]
      · cases la <;> cases idf <;> rcases lf with _ | ⟨_ | ⟨c, cs⟩⟩ <;>
          simp [setup, firstFailure, outcomeError, hv, writeBootId, ensureLogHeader,
            readIDListFromSD, readBootId, blinkLED_two, logHasData, initState, analogWrite,
            setLED, emit, delay] <;> (try cases bf) <;> simp

/-- The file operations of `setup`, step by step. -/
theorem setup_fileEvents (b : Boot) :
    fileEvents (outcomeState (setup b)).trace =
      if b.versiondata = 0 ∨ b.sd_ok = false then []
      else
        [Event.fopen Path.bootid Mode.r b.boot_file.isSome,
          Event.fopen Path.bootid Mode.w b.boot_write_ok] ++
        (if b.boot_write_ok = false then []
          else
            [Event.fprint Path.bootid (utoa (outcomeState (setup b)).boot_id 10 ++ ['\n']),
              Event.fopen Path.log Mode.r b.log_file.isSome] ++
            (if logHasData b then []
              else Event.fopen Path.log Mode.a b.log_append_ok ::
                (if b.log_append_ok then [Event.fprint Path.log logHeader] else [])) ++
            (if logHasData b = false ∧ b.log_append_ok = false then []
              else [Event.fopen Path.idlist Mode.r b.id_file.isSome])) := by
  unfold setup
  simp only []
  split
  · rename_i hv
    simp [hv, outcomeState, analogWrite, setLED, emit, initState, fileEvents]
  · rename_i hv
    split
    · rename_i hsd
      simp at hsd
      simp [hv, hsd, outcomeState, analogWrite, setLED, emit, initState, fileEvents]
    · rename_i hsd
      simp at hsd
      rw [writeBootId_fst]
      split
      · rename_i hbw
        simp at hbw
        simp [hv, hsd, hbw, outcomeState, writeBootId_fileEvents, readBootId_state, analogWrite,
          setLED, emit, initState, fileEvents, fileEvents_append]
      · rename_i hbw
        simp at hbw
        rw [ensureLogHeader_fst]
        split
        · rename_i hh
          simp [hv, hsd, hbw, outcomeState, ensureLogHeader_fileEvents,
            (writeBootId_frame _ _ _).1, (writeBootId_frame _ _ _).2.2,
            (ensureLogHeader_frame _ _).2.1,
            writeBootId_fileEvents, readBootId_state, analogWrite,
            setLED, emit, initState, fileEvents, fileEvents_append, logHasData] at hh ⊢
          simp [hh, logHasData]
        · rename_i hh
          rw [readIDListFromSD_fst]
          simp [(writeBootId_frame _ _ _).1, readBootId_state, analogWrite,
            setLED, emit, initState] at hh
          have hne : ¬ (logHasData b = false ∧ b.log_append_ok = false) := by
            intro hc
            have h5 := hh hc.1
            rw [hc.2] at h5
            exact Bool.noConfusion h5
          split <;>
            simp [hv, hsd, hbw, hne, outcomeState, (readIDListFromSD_fileEvents _).1,
              (readIDListFromSD_fileEvents _).2, (showLockStatusLED_fileEvents _ _).1,
              (showLockStatusLED_fileEvents _ _).2,
              ensureLogHeader_fileEvents, (ensureLogHeader_frame _ _).1,
              (ensureLogHeader_frame _ _).2.1,
              (writeBootId_frame _ _ _).1, (writeBootId_frame _ _ _).2.1,
              (writeBootId_frame _ _ _).2.2,
              writeBootId_fileEvents, readBootId_state, analogWrite,
              setLED, emit, initState, fileEvents, fileEvents_append, logHasData]

/-- C14: `setup` ends in the error of the first failing step in the order reader,
storage, boot-counter write, log header, credential list, and returns exactly
when none fails; the blink patterns are red x1, x2, x3 and purple x1, x2, each
round of the halt loop blinking that many times (150 ms on, 150 ms off) and
waiting 1000 ms; and a halted startup has performed no file operation of a later step: none at all
for the first two errors, only the boot-counter ones for the third, and the
boot counter is written before the log or the credential list is opened. -/
theorem C14_startup_failures (b : Boot) :
    outcomeError (setup b) = firstFailure b ∧
    ((∃ s, setup b = Outcome.running s) ↔
      (b.versiondata ≠ 0 ∧ b.sd_ok = true ∧ b.boot_write_ok = true ∧
        (logHasData b = true ∨ b.log_append_ok = true) ∧ b.id_file ≠ none)) ∧
    (initFailPattern InitError.RFID_INIT = ((70, 0, 0), 1) ∧
      initFailPattern InitError.SD_INIT = ((70, 0, 0), 2) ∧
      initFailPattern InitError.BOOT_ID = ((70, 0, 0), 3) ∧
      initFailPattern InitError.LOG_HEADER = ((70, 0, 70), 1) ∧
      initFailPattern InitError.IDLIST = ((70, 0, 70), 2)) ∧
    (∀ s : State,
      (initFailLoop InitError.RFID_INIT 1 s).trace = s.trace ++
        [Event.led 70 0 0, Event.delay 150, Event.led 0 0 0, Event.delay 150,
         Event.delay 1000] ∧
      (initFailLoop InitError.BOOT_ID 1 s).trace = s.trace ++
        [Event.led 70 0 0, Event.delay 150, Event.led 0 0 0, Event.delay 150,
         Event.led 70 0 0, Event.delay 150, Event.led 0 0 0, Event.delay 150,
         Event.led 70 0 0, Event.delay 150, Event.led 0 0 0, Event.delay 150,
         Event.delay 1000] ∧
      (initFailLoop InitError.IDLIST 1 s).trace = s.trace ++
        [Event.led 70 0 70, Event.delay 150, Event.led 0 0 0, Event.delay 150,
         Event.led 70 0 70, Event.delay 150, Event.led 0 0 0, Event.delay 150,
         Event.delay 1000]) ∧
    ((firstFailure b = some InitError.RFID_INIT ∨ firstFailure b = some InitError.SD_INIT) →
      fileEvents (outcomeState (setup b)).trace = []) ∧
    (firstFailure b = some InitError.BOOT_ID →
      fileEvents (outcomeState (setup b)).trace =
        [Event.fopen Path.bootid Mode.r b.boot_file.isSome,
         Event.fopen Path.bootid Mode.w false]) ∧
    (firstFailure b = some InitError.LOG_HEADER →
      fileEvents (outcomeState (setup b)).trace =
        [Event.fopen Path.bootid Mode.r b.boot_file.isSome,
         Event.fopen Path.bootid Mode.w true,
         Event.fprint Path.bootid (utoa (outcomeState (setup b)).boot_id 10 ++ ['\n']),
         Event.fopen Path.log Mode.r b.log_file.isSome,
         Event.fopen Path.log Mode.a false]) ∧
    ((firstFailure b = some InitError.IDLIST ∨ firstFailure b = none) →
      fileEvents (outcomeState (setup b)).trace =
        [Event.fopen Path.bootid Mode.r b.boot_file.isSome,
         Event.fopen Path.bootid Mode.w true,
         Event.fprint Path.bootid (utoa (outcomeState (setup b)).boot_id 10 ++ ['\n']),
         Event.fopen Path.log Mode.r b.log_file.isSome] ++
        (if logHasData b then []
          else [Event.fopen Path.log Mode.a true, Event.fprint Path.log logHeader]) ++
        [Event.fopen Path.idlist Mode.r b.id_file.isSome]) := by
  have h1 := setup_outcomeError b
  have hf := setup_fileEvents b
  have hblink : ∀ s : State,
      (initFailLoop InitError.RFID_INIT 1 s).trace = s.trace ++
        [Event.led 70 0 0, Event.delay 150, Event.led 0 0 0, Event.delay 150,
         Event.delay 1000] ∧
      (initFailLoop InitError.BOOT_ID 1 s).trace = s.trace ++
        [Event.led 70 0 0, Event.delay 150, Event.led 0 0 0, Event.delay 150,
         Event.led 70 0 0, Event.delay 150, Event.led 0 0 0, Event.delay 150,
         Event.led 70 0 0, Event.delay 150, Event.led 0 0 0, Event.delay 150,
         Event.delay 1000] ∧
      (initFailLoop InitError.IDLIST 1 s).trace = s.trace ++
        [Event.led 70 0 70, Event.delay 150, Event.led 0 0 0, Event.delay 150,
         Event.led 70 0 70, Event.delay 150, Event.led 0 0 0, Event.delay 150,
         Event.delay 1000] := by
    intro s
    simp [initFailLoop, initFailPattern, blinkLED, delay, setLED, emit, LED_INTENSITY]
  refine ⟨h1, ?_, by decide, hblink, ?_⟩
  · constructor
    · rintro ⟨s, hs⟩
      rw [hs] at h1
      simp only [outcomeError, firstFailure] at h1
      by_contra hcon
      revert h1
      split
      · simp
      · split
        · simp
        · split
          · simp
          · split
            · simp
            · split
              · simp
              · rename_i a1 a2 a3 a4 a5
                exfalso
                apply hcon
                refine ⟨a1, by simpa using a2, by simpa using a3, ?_, a5⟩
                by_cases hl : logHasData b = true
                · exact Or.inl hl
                · right
                  by_contra hla
                  exact a4 ⟨by simpa using hl, by simpa using hla⟩
    · rintro ⟨a1, a2, a3, a4, a5⟩
      have hn : firstFailure b = none := by
        have a4n : ¬ (logHasData b = false ∧ b.log_append_ok = false) := by
          intro hc
          rcases a4 with a4 | a4
          · rw [hc.1] at a4; exact Bool.noConfusion a4
          · rw [hc.2] at a4; exact Bool.noConfusion a4
        simp [firstFailure, a1, a2, a3, a4n, a5]
      rw [← h1] at hn
      cases hs : setup b with
      | running s => exact ⟨s, rfl⟩
      | halted err s => rw [hs] at hn; simp [outcomeError] at hn
  · rw [hf]
    unfold firstFailure
    refine ⟨?_, ?_, ?_, ?_⟩
    · split
      · simp_all
      · split
        · simp_all
        · split <;> (try split) <;> (try split) <;> simp_all
    · split
      · simp_all
      · split
        · simp_all
        · split
          · simp_all
          · split <;> (try split) <;> simp_all
    · split
      · simp_all
      · split
        · simp_all
        · split
          · simp_all
          · split
            · rename_i a1 a2 a3 a4
              intro _
              simp [a1, a2, a3, a4.1, a4.2]
            · split <;> simp_all
    · split
      · simp_all
      · split
        · simp_all
        · split
          · simp_all
          · split
            · simp_all
            · rename_i a1 a2 a3 a4
              intro _
              have a3t : b.boot_write_ok = true := by simpa using a3
              simp only [a1, a2, false_or, if_false, a3, a4, a3t]
              simp
              cases hl : logHasData b <;> simp
              cases hla : b.log_append_ok
              · exact absurd ⟨hl, hla⟩ a4
              · simp

theorem C14_startup_failures_witness :
    outcomeError (setup deadReaderBoot) = some InitError.RFID_INIT ∧
    fileEvents (outcomeState (setup deadReaderBoot)).trace = [] ∧
    (∃ s, setup firstBoot = Outcome.running s) :=
  ⟨by rw [(C14_startup_failures deadReaderBoot).1]; decide,
    (C14_startup_failures deadReaderBoot).2.2.2.2.1 (Or.inl (by decide)),
    (C14_startup_failures firstBoot).2.1.mpr (by decide)⟩

/-! ### Boot counter -/

theorem readBootId_fst_congr (s t : State) (h : s.boot_file = t.boot_file) :
    (readBootId s).1 = (readBootId t).1 := by
  unfold readBootId
  rw [h]
  cases t.boot_file <;> rfl

theorem readIDListFromSD_boot_file (s : State) :
    (readIDListFromSD s).2.boot_file = s.boot_file := by
  have hb : (blinkLED LED_INTENSITY 0 LED_INTENSITY 2 120 120 { s with id_list := [] }).boot_file
      = s.boot_file := by
    simp [blinkLED_two, delay, setLED, emit]
  unfold readIDListFromSD
  generalize blinkLED LED_INTENSITY 0 LED_INTENSITY 2 120 120 { s with id_list := [] } = B at hb
  simp only []
  split <;> simp [emit, hb]

theorem showLockStatusLED_boot_file (locked : Bool) (s : State) :
    (showLockStatusLED locked s).boot_file = s.boot_file := by
  cases locked <;> rfl

/-- The session id `setup` computes, and the boot-counter file it leaves. -/
theorem setup_boot (b : Boot) (hr : b.versiondata ≠ 0) (hs : b.sd_ok = true) :
    (outcomeState (setup b)).boot_id = ((readBootId (initState b)).1 + 1) % U32 ∧
    (outcomeState (setup b)).boot_file =
      if b.boot_write_ok then some (utoa (((readBootId (initState b)).1 + 1) % U32) 10 ++ ['\n'])
      else b.boot_file := by
  have hc : (readBootId (analogWrite PWM_OFF
      (setLED LED_INTENSITY LED_INTENSITY LED_INTENSITY (initState b)))).1
        = (readBootId (initState b)).1 := readBootId_fst_congr _ _ rfl
  unfold setup
  simp only [hr, hs, if_false, Bool.not_true, Bool.false_eq_true]
  rw [writeBootId_fst, hc]
  cases hbw : b.boot_write_ok
  · simp [outcomeState, writeBootId, readBootId_state, emit, analogWrite, setLED, initState]
  · simp only [Bool.not_true, Bool.false_eq_true, if_false, if_true]
    have hw : ∀ (n : Nat) (t : State),
        (writeBootId true n t).2.boot_file = some (utoa n 10 ++ ['\n']) := by
      intro n t; rfl
    split
    · simp [outcomeState, (ensureLogHeader_frame _ _).2.1, (ensureLogHeader_frame _ _).2.2,
        (writeBootId_frame _ _ _).2.2, hw]
    · split
      · simp [outcomeState, (ensureLogHeader_frame _ _).2.1, (ensureLogHeader_frame _ _).2.2,
          (writeBootId_frame _ _ _).2.2, hw, (readIDListFromSD_fileEvents _).2,
          readIDListFromSD_boot_file]
      · simp [outcomeState, (ensureLogHeader_frame _ _).2.1, (ensureLogHeader_frame _ _).2.2,
          (writeBootId_frame _ _ _).2.2, hw, (readIDListFromSD_fileEvents _).2,
          readIDListFromSD_boot_file, (showLockStatusLED_fileEvents _ _).2,
          showLockStatusLED_boot_file]

/-- C9: with reader and storage up, the session id of `setup` is prior + 1 (in
`uint32_t` arithmetic), where prior is what `readBootId` reads: 0 when the
boot-counter file is absent, when its first line is empty after trimming or
holds no number, and otherwise the number `toInt` reads there; when the file
can be opened for writing it then holds the decimal session id and a line feed
(1 on a first-ever start), otherwise it is left as it was; and `setup` halts
with the boot-counter error exactly when that open fails. -/
theorem C9_session_id (b : Boot) (hr : b.versiondata ≠ 0) (hs : b.sd_ok = true) :
    (outcomeState (setup b)).boot_id = ((readBootId (initState b)).1 + 1) % U32 ∧
    (b.boot_file = none → (readBootId (initState b)).1 = 0) ∧
    (∀ c, b.boot_file = some c → trim (readStringUntil '\n' c).1 = [] →
      (readBootId (initState b)).1 = 0) ∧
    (∀ c, b.boot_file = some c → unparseable (trim (readStringUntil '\n' c).1) →
      (readBootId (initState b)).1 = 0) ∧
    (∀ c, b.boot_file = some c → trim (readStringUntil '\n' c).1 ≠ [] →
      (readBootId (initState b)).1 = toUint32 (toInt (trim (readStringUntil '\n' c).1))) ∧
    (b.boot_write_ok = true → (outcomeState (setup b)).boot_file =
      some (utoa (outcomeState (setup b)).boot_id 10 ++ ['\n'])) ∧
    (b.boot_file = none → b.boot_write_ok = true →
      (outcomeState (setup b)).boot_id = 1 ∧
      (outcomeState (setup b)).boot_file = some "1\n".toList) ∧
    (b.boot_write_ok = false → (outcomeState (setup b)).boot_file = b.boot_file) ∧
    (outcomeError (setup b) = some InitError.BOOT_ID ↔ b.boot_write_ok = false) := by
  obtain ⟨h1, h2⟩ := setup_boot b hr hs
  have hnone : b.boot_file = none → (readBootId (initState b)).1 = 0 := by
    intro h
    simp [readBootId, initState, h]
  refine ⟨h1, hnone, ?_, ?_, ?_, ?_, ?_, ?_, ?_⟩
  · intro c hc hl
    simp [readBootId, initState, hc, hl]
  · intro c hc hu
    have h0 := toInt_unparseable _ hu
    simp only [readBootId, initState, hc, h0]
    split <;> rfl
  · intro c hc hl
    have hpos : (trim (readStringUntil '\n' c).1).length > 0 := List.length_pos.mpr hl
    simp only [readBootId, initState, hc, hpos, if_true]
  · intro hw
    rw [h2, h1, hw]
    rfl
  · intro hn hw
    have h0 := hnone hn
    rw [h2, h1, hw, h0]
    simp only [if_true]
    exact ⟨by decide, by decide⟩
  · intro hw
    rw [h2, hw]
    rfl
  · rw [setup_outcomeError]
    have hs2 : ¬ (b.sd_ok = false) := by rw [hs]; decide
    simp only [firstFailure, hr, hs2, if_false]
    cases hbw : b.boot_write_ok
    · simp
    · simp only [Bool.true_eq_false, if_false]
      split
      · simp
      · split <;> simp

theorem C9_session_id_witness :
    (outcomeState (setup firstBoot)).boot_id = 1 ∧
    (outcomeState (setup firstBoot)).boot_file = some "1\n".toList :=
  (C9_session_id firstBoot (by decide) rfl).2.2.2.2.2.2.1 rfl rfl

/-- C10 (as stated, refuted): with the text "-1" in the boot-counter file
`readBootId` returns 4294967295 and the session id computed by `setup` is 0. -/
theorem C10_counterexample :
    (readBootId (initState minusOneBoot)).1 = 4294967295 ∧
    (outcomeState (setup minusOneBoot)).boot_id = 0 ∧
    ¬ ((readBootId (initState minusOneBoot)).1 < (outcomeState (setup minusOneBoot)).boot_id) := by
  decide

/-- C10 (amended): the prior value `readBootId` returns is a `uint32_t`, and when it
is not the largest one (4294967295) the session id computed by `setup` is
prior + 1, strictly greater than the prior value. -/
theorem C10_session_increases (b : Boot) (hr : b.versiondata ≠ 0) (hs : b.sd_ok = true)
    (hmax : (readBootId (initState b)).1 ≠ 4294967295) :
    (readBootId (initState b)).1 < 4294967296 ∧
    (outcomeState (setup b)).boot_id = (readBootId (initState b)).1 + 1 ∧
    (readBootId (initState b)).1 < (outcomeState (setup b)).boot_id := by
  have h1 := (setup_boot b hr hs).1
  have h2 : (readBootId (initState b)).1 < 4294967296 := readBootId_lt _
  have h3 : ((readBootId (initState b)).1 + 1) % 4294967296 = (readBootId (initState b)).1 + 1 :=
    Nat.mod_eq_of_lt (by omega)
  rw [h1]
  simp only [U32]
  rw [h3]
  exact ⟨h2, rfl, Nat.lt_succ_self _⟩

theorem C10_session_increases_witness :
    (readBootId (initState firstBoot)).1 < 4294967296 ∧
    (outcomeState (setup firstBoot)).boot_id = (readBootId (initState firstBoot)).1 + 1 ∧
    (readBootId (initState firstBoot)).1 < (outcomeState (setup firstBoot)).boot_id :=
  C10_session_increases firstBoot (by decide) rfl (by decide)

/-! ### Number rendering and parsing -/

theorem digitChar_decimal (d : Nat) (h : d < 10) :
    isdigit (digitChar d) = true ∧ (digitChar d).toNat - 48 = d ∧
    (d ≠ 0 → digitChar d ≠ '0') := by
  interval_cases d <;> decide

theorem digitChar_eq_core (d : Nat) (h : d < 16) : Nat.digitChar d = digitChar d := by
  interval_cases d <;> rfl

theorem utoaRev_fuel (base : Nat) (hb : 2 ≤ base) (f1 f2 n : Nat) (h1 : n < f1) (h2 : n < f2) :
    utoaRev base f1 n = utoaRev base f2 n := by
  induction f1 generalizing f2 n with
  | zero => omega
  | succ k ih =>
    cases f2 with
    | zero => omega
    | succ m =>
      simp only [utoaRev]
      by_cases hz : n / base = 0
      · simp [hz]
      · simp only [hz, if_false]
        have hn : 0 < n := by
          rcases Nat.eq_zero_or_pos n with h0 | h0
          · rw [h0] at hz; simp at hz
          · exact h0
        have hlt : n / base < n := Nat.div_lt_self hn (by omega)
        rw [ih m (n / base) (by omega) (by omega)]

theorem utoa_small (base n : Nat) (h : n / base = 0) : utoa n base = [digitChar (n % base)] := by
  simp [utoa, utoaRev, h]

theorem utoa_step (base : Nat) (hb : 2 ≤ base) (n : Nat) (h : n / base ≠ 0) :
    utoa n base = utoa (n / base) base ++ [digitChar (n % base)] := by
  have hn : 0 < n := by
    rcases Nat.eq_zero_or_pos n with h0 | h0
    · rw [h0] at h; simp at h
    · exact h0
  have hlt : n / base < n := Nat.div_lt_self hn (by omega)
  have e1 : utoaRev base (n + 1) n = digitChar (n % base) :: utoaRev base n (n / base) := by
    rw [utoaRev]; simp [h]
  unfold utoa
  rw [e1, List.reverse_cons, utoaRev_fuel base hb n (n / base + 1) (n / base) hlt (by omega)]

theorem toDigitsCore_eq (base : Nat) (hb0 : 0 < base) (hb : base ≤ 16) (f n : Nat)
    (ds : List Char) :
    Nat.toDigitsCore base f n ds = (utoaRev base f n).reverse ++ ds := by
  induction f generalizing n ds with
  | zero => simp [Nat.toDigitsCore, utoaRev]
  | succ k ih =>
    have hd : Nat.digitChar (n % base) = digitChar (n % base) :=
      digitChar_eq_core _ (by have := Nat.mod_lt n hb0; omega)
    simp only [Nat.toDigitsCore, utoaRev, hd]
    by_cases hz : n / base = 0
    · simp [hz]
    · simp [hz, ih]

/-- The model of `utoa` agrees with the decimal rendering of the Lean core library. -/
theorem utoa_eq_toDigits (n : Nat) : utoa n 10 = Nat.toDigits 10 n := by
  unfold utoa Nat.toDigits
  rw [toDigitsCore_eq 10 (by decide) (by decide)]
  simp

theorem utoa_decimal (n : Nat) :
    (∀ c ∈ utoa n 10, isdigit c = true) ∧ strtolDigits 0 (utoa n 10) = n ∧
    utoa n 10 ≠ [] ∧ (n ≠ 0 → ∀ r, utoa n 10 ≠ '0' :: r) := by
  induction n using Nat.strong_induction_on with
  | _ n ih =>
    by_cases hz : n / 10 = 0
    · have hlt : n < 10 := by omega
      have hm : n % 10 = n := Nat.mod_eq_of_lt hlt
      rw [utoa_small 10 n hz, hm]
      obtain ⟨d1, d2, d3⟩ := digitChar_decimal n hlt
      refine ⟨?_, ?_, by simp, ?_⟩
      · intro c hc
        simp only [List.mem_singleton] at hc
        rw [hc]; exact d1
      · simp [strtolDigits, d1, d2]
      · intro hn r hr
        simp only [List.cons.injEq] at hr
        exact d3 hn hr.1
    · have hlt : n / 10 < n := by omega
      obtain ⟨i1, i2, i3, i4⟩ := ih (n / 10) hlt
      obtain ⟨d1, d2, _⟩ := digitChar_decimal (n % 10) (Nat.mod_lt n (by decide))
      rw [utoa_step 10 (by decide) n hz]
      refine ⟨?_, ?_, by simp, ?_⟩
      · intro c hc
        rcases List.mem_append.mp hc with hc | hc
        · exact i1 c hc
        · simp only [List.mem_singleton] at hc
          rw [hc]; exact d1
      · have happ : ∀ (xs : List Char) (acc : Nat) (c : Char),
            (∀ x ∈ xs, isdigit x = true) → isdigit c = true →
            strtolDigits acc (xs ++ [c]) = strtolDigits acc xs * 10 + (c.toNat - 48) := by
          intro xs
          induction xs with
          | nil => intro acc c _ hc; simp [strtolDigits, hc]
          | cons x xs ihx =>
            intro acc c hx hc
            have hx1 : isdigit x = true := hx x (List.mem_cons_self _ _)
            simp only [List.cons_append, strtolDigits, hx1, if_true]
            exact ihx _ c (fun y hy => hx y (List.mem_cons_of_mem _ hy)) hc
        rw [happ _ 0 _ i1 d1, i2, d2]
        omega
      · intro _ r hr
        cases hu : utoa (n / 10) 10 with
        | nil => exact i3 hu
        | cons x xs =>
          rw [hu] at hr
          simp only [List.cons_append, List.cons.injEq] at hr
          exact i4 hz xs (by rw [hu, hr.1])

/-! ### Audit log -/

theorem headerWrites_append (a b : List Event) :
    headerWrites (a ++ b) = headerWrites a + headerWrites b := by
  induction a with
  | nil => simp [headerWrites]
  | cons e es ih =>
    cases e with
    | fprint p t => cases p <;> simp [headerWrites, ih, Nat.add_assoc]
    | sol d => simp [headerWrites, ih]
    | led r g b => simp [headerWrites, ih]
    | delay ms => simp [headerWrites, ih]
    | fopen p m ok => simp [headerWrites, ih]

theorem ensureLogHeader_hasData (ok : Bool) (s : State) (c : List Char)
    (h : s.log_file = some c) (hc : c ≠ []) :
    ensureLogHeader ok s = (true, emit (Event.fopen Path.log Mode.r true) s) := by
  have hl : 0 < c.length := List.length_pos.mpr hc
  simp [ensureLogHeader, h, hl]

theorem ensureLogHeader_empty (ok : Bool) (s : State) (h : logEmpty s) :
    ensureLogHeader ok s =
      if ok then
        (true, emit (Event.fprint Path.log logHeader)
          { emit (Event.fopen Path.log Mode.a true)
              (emit (Event.fopen Path.log Mode.r s.log_file.isSome) s) with
            log_file := some logHeader })
      else
        (false, emit (Event.fopen Path.log Mode.a false)
          (emit (Event.fopen Path.log Mode.r s.log_file.isSome) s)) := by
  rcases h with h | h <;> cases ok <;> simp [ensureLogHeader, h, emit]

theorem recordLog_line_ne_header (n m : Nat) (uid : List Char) :
    utoa n 10 ++ [','] ++ utoa m 10 ++ [','] ++ uid ++ ['\n'] ≠ logHeader := by
  obtain ⟨h1, _, h3, _⟩ := utoa_decimal n
  cases hu : utoa n 10 with
  | nil => exact absurd hu h3
  | cons x xs =>
    have hx : isdigit x = true := h1 x (by rw [hu]; exact List.mem_cons_self _ _)
    intro heq
    have hh : x = 'b' := by
      have := congrArg List.head? heq
      simpa [logHeader] using this
    rw [hh] at hx
    exact absurd hx (by decide)

theorem recordLog_log (dt : Nat) (ok : Bool) (uid : List Char) (s : State) :
    headerWrites (recordLog dt ok uid s).2.trace = headerWrites s.trace ∧
    (∀ c, s.log_file = some c → ∃ t, (recordLog dt ok uid s).2.log_file = some (c ++ t)) ∧
    (s.log_file = none → (recordLog dt ok uid s).2.log_file = none ∨
      ∃ t, t ≠ [] ∧ (recordLog dt ok uid s).2.log_file = some t) := by
  cases ok
  · refine ⟨?_, ?_, ?_⟩
    · simp [recordLog, setLED, tick, emit, headerWrites_append, headerWrites]
    · intro c hc
      exact ⟨[], by simp [recordLog, setLED, tick, emit, hc]⟩
    · intro hc
      left
      simp [recordLog, setLED, tick, emit, hc]
  · refine ⟨?_, ?_, ?_⟩
    · have hne := recordLog_line_ne_header s.boot_id
        ((s.clock_us + dt) % U64 / 1000 % U32) uid
      simp only [List.append_assoc, List.cons_append, List.nil_append] at hne
      simp [recordLog, setLED, tick, emit, delay, nowMs, headerWrites_append, headerWrites, hne]
    · intro c hc
      exact ⟨_, by simp [recordLog, setLED, tick, emit, delay, hc]; rfl⟩
    · intro hc
      right
      refine ⟨_, ?_, by simp [recordLog, setLED, tick, emit, delay, hc]; rfl⟩
      simp

theorem ensureLogHeader_trace_hasData (ok : Bool) (s : State) (c : List Char)
    (h : s.log_file = some c) (hc : c ≠ []) :
    headerWrites (ensureLogHeader ok s).2.trace = headerWrites s.trace ∧
    (ensureLogHeader ok s).2.log_file = some c := by
  rw [ensureLogHeader_hasData ok s c h hc]
  simp [emit, headerWrites_append, headerWrites, h]

theorem runLogOp_headered (op : LogOp) (s : State)
    (h : headerWrites s.trace = 1 ∧ ∃ rest, s.log_file = some (logHeader ++ rest)) :
    headerWrites (runLogOp op s).trace = 1 ∧
      ∃ rest, (runLogOp op s).log_file = some (logHeader ++ rest) := by
  obtain ⟨h1, rest, h2⟩ := h
  have hne : logHeader ++ rest ≠ [] := by simp [logHeader]
  cases op with
  | ensure ok =>
    obtain ⟨a1, a2⟩ := ensureLogHeader_trace_hasData ok s _ h2 hne
    exact ⟨by simp only [runLogOp]; rw [a1, h1], rest, a2⟩
  | record dt ok uid =>
    obtain ⟨a1, a2, _⟩ := recordLog_log dt ok uid s
    obtain ⟨t, ht⟩ := a2 _ h2
    refine ⟨by simp only [runLogOp]; rw [a1, h1], rest ++ t, ?_⟩
    simp only [runLogOp]
    rw [ht, List.append_assoc]

theorem runLogOps_headered (ops : List LogOp) (s : State)
    (h : headerWrites s.trace = 1 ∧ ∃ rest, s.log_file = some (logHeader ++ rest)) :
    headerWrites (runLogOps ops s).trace = 1 ∧
      ∃ rest, (runLogOps ops s).log_file = some (logHeader ++ rest) := by
  induction ops generalizing s with
  | nil => exact h
  | cons op ops ih => exact ih _ (runLogOp_headered op s h)

theorem runLogOp_atMostOnce (op : LogOp) (s : State)
    (h : headerWrites s.trace = 0 ∨
      (headerWrites s.trace = 1 ∧ ∃ c, s.log_file = some c ∧ c ≠ [])) :
    headerWrites (runLogOp op s).trace = 0 ∨
      (headerWrites (runLogOp op s).trace = 1 ∧ ∃ c, (runLogOp op s).log_file = some c ∧ c ≠ []) := by
  cases op with
  | record dt ok uid =>
    obtain ⟨a1, a2, _⟩ := recordLog_log dt ok uid s
    simp only [runLogOp]
    rw [a1]
    rcases h with h | ⟨h, c, hc, hne⟩
    · exact Or.inl h
    · obtain ⟨t, ht⟩ := a2 c hc
      exact Or.inr ⟨h, c ++ t, ht, by simp [hne]⟩
  | ensure ok =>
    simp only [runLogOp]
    by_cases he : logEmpty s
    · have h0 : headerWrites s.trace = 0 := by
        rcases h with h | ⟨_, c, hc, hne⟩
        · exact h
        · rcases he with he | he
          · rw [he] at hc; exact Option.noConfusion hc
          · rw [he] at hc
            exact absurd (Option.some.inj hc).symm hne
      rw [ensureLogHeader_empty ok s he]
      cases ok
      · left
        simp [emit, headerWrites_append, headerWrites, h0]
      · right
        refine ⟨by simp [emit, headerWrites_append, headerWrites, h0], logHeader, ?_, ?_⟩
        · simp [emit]
        · simp [logHeader]
    · have hsome : ∃ c, s.log_file = some c ∧ c ≠ [] := by
        cases hf : s.log_file with
        | none => exact absurd (Or.inl hf) he
        | some c =>
          refine ⟨c, rfl, ?_⟩
          intro hc
          exact he (Or.inr (by rw [hf, hc]))
      obtain ⟨c, hc, hne⟩ := hsome
      obtain ⟨a1, a2⟩ := ensureLogHeader_trace_hasData ok s c hc hne
      rw [a1]
      rcases h with h | ⟨h, _⟩
      · exact Or.inl h
      · exact Or.inr ⟨h, c, a2, hne⟩

theorem runLogOps_atMostOnce (ops : List LogOp) (s : State)
    (h : headerWrites s.trace = 0 ∨
      (headerWrites s.trace = 1 ∧ ∃ c, s.log_file = some c ∧ c ≠ [])) :
    headerWrites (runLogOps ops s).trace ≤ 1 := by
  induction ops generalizing s with
  | nil =>
    simp only [runLogOps]
    rcases h with h | ⟨h, _⟩ <;> omega
  | cons op ops ih => exact ih _ (runLogOp_atMostOnce op s h)

/-- C15: `ensureLogHeader` on the content of the log file: a file that exists and
is non-empty is left as it is and the call succeeds; an absent or empty file
ends up holding exactly the header line when it can be opened for append, and
otherwise the call fails and the file is unchanged; the call fails only when
that open fails.  Hence a second call after a successful one changes nothing,
and over any sequence of `ensureLogHeader` and `recordLog` calls the header is
printed at most once, exactly once when the sequence starts with a successful
`ensureLogHeader` on an absent or empty file, the file then starting with it. -/
theorem C15_ensure_header (ok : Bool) (s : State) :
    (∀ c, s.log_file = some c → c ≠ [] →
      (ensureLogHeader ok s).1 = true ∧ (ensureLogHeader ok s).2.log_file = some c) ∧
    (logEmpty s → ok = true →
      (ensureLogHeader ok s).1 = true ∧ (ensureLogHeader ok s).2.log_file = some logHeader) ∧
    (logEmpty s → ok = false →
      (ensureLogHeader ok s).1 = false ∧ (ensureLogHeader ok s).2.log_file = s.log_file) ∧
    ((ensureLogHeader ok s).1 = false → ok = false ∧ logEmpty s) ∧
    (∀ ok2, (ensureLogHeader ok s).1 = true →
      (ensureLogHeader ok2 (ensureLogHeader ok s).2).1 = true ∧
      (ensureLogHeader ok2 (ensureLogHeader ok s).2).2.log_file =
        (ensureLogHeader ok s).2.log_file) ∧
    (ensureLogHeader ok (ensureLogHeader ok s).2).2.log_file =
      (ensureLogHeader ok s).2.log_file ∧
    (∀ ops, headerWrites s.trace = 0 → headerWrites (runLogOps ops s).trace ≤ 1) ∧
    (∀ ops, logEmpty s → headerWrites s.trace = 0 →
      headerWrites (runLogOps (LogOp.ensure true :: ops) s).trace = 1 ∧
      ∃ rest, (runLogOps (LogOp.ensure true :: ops) s).log_file = some (logHeader ++ rest)) := by
  have p1 : ∀ c, s.log_file = some c → c ≠ [] →
      (ensureLogHeader ok s).1 = true ∧ (ensureLogHeader ok s).2.log_file = some c := by
    intro c hc hne
    rw [ensureLogHeader_hasData ok s c hc hne]
    exact ⟨rfl, hc⟩
  have p2 : logEmpty s → ok = true →
      (ensureLogHeader ok s).1 = true ∧ (ensureLogHeader ok s).2.log_file = some logHeader := by
    intro he hk
    rw [ensureLogHeader_empty ok s he, hk]
    exact ⟨rfl, rfl⟩
  have p3 : logEmpty s → ok = false →
      (ensureLogHeader ok s).1 = false ∧ (ensureLogHeader ok s).2.log_file = s.log_file := by
    intro he hk
    rw [ensureLogHeader_empty ok s he, hk]
    exact ⟨rfl, rfl⟩
  have hcase : logEmpty s ∨ ∃ c, s.log_file = some c ∧ c ≠ [] := by
    cases hf : s.log_file with
    | none => exact Or.inl (Or.inl hf)
    | some c =>
      by_cases hc : c = []
      · exact Or.inl (Or.inr (by rw [hf, hc]))
      · exact Or.inr ⟨c, rfl, hc⟩
  have hok : ok = true ∨ ok = false := Bool.eq_false_or_eq_true ok
  have p5 : ∀ ok2, (ensureLogHeader ok s).1 = true →
      (ensureLogHeader ok2 (ensureLogHeader ok s).2).1 = true ∧
      (ensureLogHeader ok2 (ensureLogHeader ok s).2).2.log_file =
        (ensureLogHeader ok s).2.log_file := by
    intro ok2 ht
    have hdata : ∃ c, (ensureLogHeader ok s).2.log_file = some c ∧ c ≠ [] := by
      rcases hcase with he | ⟨c, hc, hne⟩
      · rcases hok with hk | hk
        · exact ⟨logHeader, (p2 he hk).2, by simp [logHeader]⟩
        · rw [(p3 he hk).1] at ht; exact Bool.noConfusion ht
      · exact ⟨c, (p1 c hc hne).2, hne⟩
    obtain ⟨c, hc, hne⟩ := hdata
    rw [ensureLogHeader_hasData ok2 _ c hc hne]
    exact ⟨rfl, rfl⟩
  refine ⟨p1, p2, p3, ?_, p5, ?_, ?_, ?_⟩
  · intro hf
    rcases hcase with he | ⟨c, hc, hne⟩
    · rcases hok with hk | hk
      · rw [(p2 he hk).1] at hf; exact Bool.noConfusion hf
      · exact ⟨hk, he⟩
    · rw [(p1 c hc hne).1] at hf; exact Bool.noConfusion hf
  · rcases Bool.eq_false_or_eq_true (ensureLogHeader ok s).1 with ht | ht
    · exact (p5 ok ht).2
    · rcases hcase with he | ⟨c, hc, hne⟩
      · rcases hok with hk | hk
        · rw [(p2 he hk).1] at ht; exact Bool.noConfusion ht
        · have hs2 : (ensureLogHeader ok s).2.log_file = s.log_file := (p3 he hk).2
          have he2 : logEmpty (ensureLogHeader ok s).2 := by
            unfold logEmpty; rw [hs2]; exact he
          rw [ensureLogHeader_empty ok _ he2, hk]
          simp only [Bool.false_eq_true, if_false]
          rw [← hk]
          simp [emit]
      · rw [(p1 c hc hne).1] at ht; exact Bool.noConfusion ht
  · intro ops h0
    exact runLogOps_atMostOnce ops s (Or.inl h0)
  · intro ops he h0
    refine runLogOps_headered ops _ ?_
    simp only [runLogOp]
    rw [ensureLogHeader_empty true s he]
    refine ⟨by simp [emit, headerWrites_append, headerWrites, h0], [], ?_⟩
    simp [emit]

theorem C15_ensure_header_witness :
    (ensureLogHeader true (initState firstBoot)).1 = true ∧
    (ensureLogHeader true (initState firstBoot)).2.log_file = some logHeader ∧
    headerWrites (runLogOps [LogOp.ensure true, LogOp.record 0 true "04a1b2c3".toList,
      LogOp.ensure true] (initState firstBoot)).trace = 1 :=
  ⟨((C15_ensure_header true (initState firstBoot)).2.1 (Or.inl rfl) rfl).1,
    ((C15_ensure_header true (initState firstBoot)).2.1 (Or.inl rfl) rfl).2,
    ((C15_ensure_header true (initState firstBoot)).2.2.2.2.2.2.2 _ (Or.inl rfl) rfl).1⟩

theorem updateUnlockState_boot_id (locked : Bool) (s : State) :
    (updateUnlockState locked s).boot_id = s.boot_id := by
  unfold updateUnlockState
  simp only []
  split
  · rfl
  · split
    · rfl
    · split
      · rfl
      · split <;> rfl

theorem handleCard_boot_id (e : Env) (uid : List Char) (s : State) :
    (handleCard e uid s).1.boot_id = s.boot_id := by
  by_cases hc : uid = s.last_uid ∧ subU64 (nowMs s) s.last_uid_ms < 2000
  · have h3 : uid = s.last_uid ∧ subU64 (nowMs s) s.last_uid_ms < kCardCooldownMs := hc
    simp only [handleCard, if_pos h3]
    rfl
  · cases ha : isAuthorized s.id_list uid
    · rw [handleCard_denied e uid s ha hc]
    · rw [handleCard_authorized e uid s ha hc]
      cases e.log_open <;> simp [recordLog, setLED, tick, emit, delay]

theorem loop_boot_id (e : Env) (s : State) : (loop e s).boot_id = s.boot_id := by
  have hp : (preCard e s).boot_id = s.boot_id := by
    unfold preCard
    show (updateUnlockState e.door_upd (showLockStatusLED e.door_led (tick e.dt_pre s))).boot_id
      = s.boot_id
    rw [updateUnlockState_boot_id]
    cases e.door_led <;> rfl
  rw [loop_eq]
  split
  · split
    · rw [handleCard_boot_id, hp]
    · show (handleCard e _ (preCard e s)).1.boot_id = s.boot_id
      rw [handleCard_boot_id, hp]
  · exact hp

theorem reachable_boot_id (s : State) (h : Reachable s) : s.boot_id < 4294967296 := by
  induction h with
  | boot b s hb =>
    have hv : b.versiondata ≠ 0 := by
      intro hv
      simp [setup, hv] at hb
    have hsd : b.sd_ok = true := by
      cases hs : b.sd_ok
      · simp [setup, hv, hs] at hb
      · rfl
    have h1 := (setup_boot b hv hsd).1
    rw [hb] at h1
    simp only [outcomeState] at h1
    rw [h1]
    exact Nat.mod_lt _ (by decide)
  | step e s _ ih =>
    rw [loop_boot_id]
    exact ih

/-- C16: a `recordLog(uid)` whose open succeeds returns true, leaves the log file as
the old content followed by the one line `boot_id,elapsed,uid` and a line feed,
where `elapsed` is the millisecond clock reduced modulo 2^32 and `boot_id` is
below 2^32 in every reachable state, and both numbers are printed by `utoa` in
base 10: decimal digits only, no leading zero, equal to the decimal rendering
of the core library, read back by `strtol` as the number; nothing else is
printed to a file. -/
theorem C16_append_line (dt : Nat) (uid : List Char) (s : State) :
    (recordLog dt true uid s).1 = true ∧
    (recordLog dt true uid s).2.log_file = some (s.log_file.getD [] ++
      (utoa s.boot_id 10 ++ [','] ++ utoa ((s.clock_us + dt) % U64 / 1000 % 4294967296) 10 ++
        [','] ++ uid ++ ['\n'])) ∧
    (recordLog dt true uid s).2.trace = s.trace ++
      [Event.led 70 0 70, Event.fopen Path.log Mode.a true,
       Event.fprint Path.log
        (utoa s.boot_id 10 ++ [','] ++ utoa ((s.clock_us + dt) % U64 / 1000 % 4294967296) 10 ++
          [','] ++ uid ++ ['\n']),
       Event.delay 300] ∧
    (s.clock_us + dt) % U64 / 1000 % 4294967296 < 4294967296 ∧
    (Reachable s → s.boot_id < 4294967296) ∧
    (∀ n : Nat, utoa n 10 = Nat.toDigits 10 n ∧ (∀ c ∈ utoa n 10, isdigit c = true) ∧
      utoa n 10 ≠ [] ∧ (n ≠ 0 → ∀ r, utoa n 10 ≠ '0' :: r) ∧ strtolDigits 0 (utoa n 10) = n) := by
  refine ⟨rfl, ?_, ?_, Nat.mod_lt _ (by decide), reachable_boot_id s, ?_⟩
  · simp [recordLog, setLED, tick, emit, delay, nowMs, U32]
  · simp [recordLog, setLED, tick, emit, delay, nowMs, U32, LED_INTENSITY, kLogHoldMs]
  · intro n
    obtain ⟨h1, h2, h3, h4⟩ := utoa_decimal n
    exact ⟨utoa_eq_toDigits n, h1, h3, h4, h2⟩

theorem C16_append_line_witness :
    (recordLog 0 true "04a1b2c3".toList idleState).2.log_file =
      some "boot_id,elapsed_ms,uid\n7,60000,04a1b2c3\n".toList ∧
    utoa 4294967295 10 = "4294967295".toList := by
  refine ⟨?_, by decide⟩
  rw [(C16_append_line 0 "04a1b2c3".toList idleState).2.1]
  decide

/-! ### Credential encoding -/

theorem digitChar_hex (d : Nat) (h : d < 16) :
    digitChar d = hexDigits.getD d '?' ∧ hexDigits.getD d '?' ∈ hexDigits ∧
    hexDigits.indexOf (hexDigits.getD d '?') = d := by
  interval_cases d <;> decide

theorem byte_hex (b : Fin 256) :
    (if b.val < 16 then ['0'] else []) ++ utoa b.val 16 = hex2 b := by
  have hb : b.val < 256 := b.isLt
  by_cases h : b.val < 16
  · have hz : b.val / 16 = 0 := by omega
    have hm : b.val % 16 = b.val := by omega
    rw [utoa_small 16 b.val hz, hm, (digitChar_hex b.val h).1]
    simp [hex2, hz, hm, h, hexDigits]
  · have hz : b.val / 16 ≠ 0 := by omega
    have hz2 : b.val / 16 / 16 = 0 := by omega
    have hm2 : b.val / 16 % 16 = b.val / 16 := by omega
    rw [utoa_step 16 (by decide) b.val hz, utoa_small 16 (b.val / 16) hz2, hm2,
      (digitChar_hex (b.val / 16) (by omega)).1,
      (digitChar_hex (b.val % 16) (by omega)).1]
    simp [hex2, h]

theorem hexLoop_eq (bs : List (Fin 256)) (acc : List Char) :
    hexLoop bs acc = acc ++ hexString bs := by
  induction bs generalizing acc with
  | nil => simp [hexLoop, hexString]
  | cons b bs ih =>
    simp only [hexLoop, hexString]
    rw [ih, ← byte_hex b]
    by_cases h : b.val < 16 <;> simp [h]

theorem readCardUID_eq (bs : List (Fin 256)) : readCardUID true bs = hexString bs := by
  cases bs with
  | nil => rfl
  | cons b bs =>
    simp only [readCardUID, List.length_cons]
    rw [hexLoop_eq]
    simp

theorem hex2_injective (a b : Fin 256) (h : hex2 a = hex2 b) : a = b := by
  have ha : a.val < 256 := a.isLt
  have hb : b.val < 256 := b.isLt
  simp only [hex2, List.cons.injEq, and_true] at h
  have h1 : hexDigits.indexOf (hexDigits.getD (a.val / 16) '?') =
      hexDigits.indexOf (hexDigits.getD (b.val / 16) '?') := by rw [h.1]
  have h2 : hexDigits.indexOf (hexDigits.getD (a.val % 16) '?') =
      hexDigits.indexOf (hexDigits.getD (b.val % 16) '?') := by rw [h.2]
  rw [(digitChar_hex (a.val / 16) (by omega)).2.2,
    (digitChar_hex (b.val / 16) (by omega)).2.2] at h1
  rw [(digitChar_hex (a.val % 16) (by omega)).2.2,
    (digitChar_hex (b.val % 16) (by omega)).2.2] at h2
  exact Fin.ext (by omega)

theorem hexString_injective (a b : List (Fin 256)) (h : hexString a = hexString b) : a = b := by
  induction a generalizing b with
  | nil =>
    cases b with
    | nil => rfl
    | cons y ys => simp [hexString, hex2] at h
  | cons x xs ih =>
    cases b with
    | nil => simp [hexString, hex2] at h
    | cons y ys =>
      simp only [hexString, hex2, List.cons_append, List.nil_append, List.cons.injEq] at h
      have hxy : x = y := hex2_injective x y (by
        show [hexDigits.getD (x.val / 16) '?', hexDigits.getD (x.val % 16) '?'] =
          [hexDigits.getD (y.val / 16) '?', hexDigits.getD (y.val % 16) '?']
        rw [h.1, h.2.1])
      rw [hxy, ih ys h.2.2]

theorem hexString_props (bs : List (Fin 256)) :
    (hexString bs).length = 2 * bs.length ∧
    (∀ c ∈ hexString bs, c ∈ hexDigits) ∧
    (∀ (i : Nat) (h : i < bs.length),
      List.take 2 (List.drop (2 * i) (hexString bs)) = hex2 (bs.get ⟨i, h⟩)) := by
  induction bs with
  | nil => simp [hexString]
  | cons b bs ih =>
    obtain ⟨h1, h2, h3⟩ := ih
    have hb : b.val < 256 := b.isLt
    refine ⟨?_, ?_, ?_⟩
    · simp [hexString, hex2, h1]; omega
    · intro c hc
      simp only [hexString, List.mem_append] at hc
      rcases hc with hc | hc
      · simp only [hex2, List.mem_cons, List.mem_singleton, List.not_mem_nil, or_false] at hc
        rcases hc with hc | hc
        · rw [hc]; exact (digitChar_hex (b.val / 16) (by omega)).2.1
        · rw [hc]; exact (digitChar_hex (b.val % 16) (by omega)).2.1
      · exact h2 c hc
    · intro i hi
      cases i with
      | zero => simp [hexString, hex2]
      | succ k =>
        have hk : k < bs.length := by simpa using hi
        have e : 2 * (k + 1) = 2 * k + 2 := by ring
        have := h3 k hk
        simp only [hexString, hex2, List.cons_append, List.nil_append, e, List.drop_succ_cons,
          List.get_cons_succ] at this ⊢
        exact this

/-- C13: for the bytes of a successfully read tag identifier `readCardUID` returns
the two-digit lowercase zero-padded hexadecimal rendering of each byte in order:
2n characters, all among 0-9 and a-f, characters 2i and 2i+1 rendering byte i;
when the read fails or reports no byte it returns the empty string. -/
theorem C13_hex_rendering (bs : List (Fin 256)) :
    readCardUID true bs = hexString bs ∧
    (readCardUID true bs).length = 2 * bs.length ∧
    (∀ c ∈ readCardUID true bs, c ∈ "0123456789abcdef".toList) ∧
    (∀ (i : Nat) (h : i < bs.length),
      List.take 2 (List.drop (2 * i) (readCardUID true bs)) =
        [hexDigits.getD ((bs.get ⟨i, h⟩).val / 16) '?',
         hexDigits.getD ((bs.get ⟨i, h⟩).val % 16) '?']) ∧
    readCardUID false bs = [] ∧
    (∀ ok : Bool, readCardUID ok [] = []) := by
  obtain ⟨h1, h2, h3⟩ := hexString_props bs
  rw [readCardUID_eq]
  refine ⟨rfl, h1, h2, h3, rfl, ?_⟩
  intro ok
  cases ok <;> rfl

theorem C13_hex_rendering_witness :
    readCardUID true [4, 161, 178, 195] = "04a1b2c3".toList ∧
    List.take 2 (List.drop (2 * 1) (readCardUID true [4, 161, 178, 195])) = "a1".toList := by
  refine ⟨by decide, ?_⟩
  rw [(C13_hex_rendering [4, 161, 178, 195]).2.2.2.1 1 (by decide)]
  decide

/-- C20: the credential encoding is injective: tag identifiers (of any lengths)
with equal hex strings are equal, so different tags give different strings,
which neither the `==` of `isAuthorized` nor that of the cooldown test takes
for one another; and a tag identifier of at least one byte never encodes to
the empty string that stands for "no tag". -/
theorem C20_encoding_injective (a b : List (Fin 256)) :
    (readCardUID true a = readCardUID true b → a = b) ∧
    (a ≠ b → readCardUID true a ≠ readCardUID true b) ∧
    (a ≠ b → isAuthorized [readCardUID true a] (readCardUID true b) = false) ∧
    (a ≠ b → ∀ s : State, s.last_uid = readCardUID true a →
      ¬ (readCardUID true b = s.last_uid ∧ subU64 (nowMs s) s.last_uid_ms < 2000)) ∧
    (a ≠ [] → readCardUID true a ≠ []) := by
  have hinj : readCardUID true a = readCardUID true b → a = b := by
    rw [readCardUID_eq, readCardUID_eq]
    exact hexString_injective a b
  refine ⟨hinj, fun hne h => hne (hinj h), ?_, ?_, ?_⟩
  · intro hne
    have hd : readCardUID true a ≠ readCardUID true b := fun h => hne (hinj h)
    simp [isAuthorized, hd]
  · intro hne s hs hc
    rw [hs] at hc
    exact hne (hinj hc.1.symm)
  · intro hne h
    rw [readCardUID_eq] at h
    have : hexString a = hexString [] := by rw [h]; rfl
    exact hne (hexString_injective a [] this)

theorem C20_encoding_injective_witness :
    readCardUID true [4, 161, 178, 195] ≠ readCardUID true [4, 161, 178] ∧
    readCardUID true [4, 161, 178, 195] ≠ [] :=
  ⟨(C20_encoding_injective [4, 161, 178, 195] [4, 161, 178]).2.1 (by decide),
    (C20_encoding_injective [4, 161, 178, 195] []).2.2.2.2 (by decide)⟩

/-! ### Text lemmas -/

theorem dropWhile_append_stop (p : Char → Bool) (xs ys : List Char) (c : Char)
    (hc : p c = false) :
    (xs ++ c :: ys).dropWhile p = xs.dropWhile p ++ c :: ys := by
  induction xs with
  | nil => simp [List.dropWhile, hc]
  | cons x xs ih =>
    by_cases hx : p x = true
    · simp [List.dropWhile, hx, ih]
    · simp [List.dropWhile, hx]

theorem dropWhile_idem (p : Char → Bool) (xs : List Char) :
    (xs.dropWhile p).dropWhile p = xs.dropWhile p := by
  induction xs with
  | nil => rfl
  | cons x xs ih =>
    by_cases hx : p x = true
    · simp [List.dropWhile, hx, ih]
    · simp [List.dropWhile, hx]

theorem dropWhile_all (p : Char → Bool) (xs : List Char) (h : ∀ c ∈ xs, p c = true) :
    xs.dropWhile p = [] := by
  induction xs with
  | nil => rfl
  | cons x xs ih =>
    have hx : p x = true := h x (List.mem_cons_self _ _)
    simp only [List.dropWhile, hx]
    exact ih (fun c hc => h c (List.mem_cons_of_mem _ hc))

theorem dropWhile_head (p : Char → Bool) (xs : List Char)
    (h : ∀ c, xs.head? = some c → p c = false) : xs.dropWhile p = xs := by
  cases xs with
  | nil => rfl
  | cons x xs =>
    have hx : p x = false := h x rfl
    simp [List.dropWhile, hx]

theorem takeWhile_append_stop (p : Char → Bool) (xs ys : List Char) (c : Char)
    (hx : ∀ x ∈ xs, p x = true) (hc : p c = false) :
    (xs ++ c :: ys).takeWhile p = xs := by
  induction xs with
  | nil => simp [List.takeWhile, hc]
  | cons x xs ih =>
    have h1 : p x = true := hx x (List.mem_cons_self _ _)
    simp only [List.cons_append, List.takeWhile, h1]
    exact congrArg (fun t => x :: t) (ih (fun y hy => hx y (List.mem_cons_of_mem _ hy)))

theorem takeWhile_all (p : Char → Bool) (xs : List Char) (hx : ∀ x ∈ xs, p x = true) :
    xs.takeWhile p = xs := by
  induction xs with
  | nil => rfl
  | cons x xs ih =>
    have h1 : p x = true := hx x (List.mem_cons_self _ _)
    simp only [List.takeWhile, h1]
    rw [ih (fun y hy => hx y (List.mem_cons_of_mem _ hy))]

theorem take_takeWhile_length (p : Char → Bool) (xs : List Char) :
    xs.take (xs.takeWhile p).length = xs.takeWhile p := by
  induction xs with
  | nil => rfl
  | cons x xs ih =>
    by_cases hx : p x = true
    · simp [List.takeWhile, hx, ih]
    · simp [List.takeWhile, hx]

theorem trim_nil : trim [] = [] := rfl

theorem trim_all_space (ws : List Char) (h : ∀ c ∈ ws, isspace c = true) : trim ws = [] := by
  unfold trim
  rw [dropWhile_all isspace ws h]
  rfl

theorem trim_edgeFree (l : List Char) (h : edgeFree l) : trim l = l := by
  unfold trim
  rw [dropWhile_head isspace l h.1]
  rw [dropWhile_head isspace l.reverse (by rw [List.head?_reverse]; exact h.2)]
  exact List.reverse_reverse l

theorem trim_drop_left (l : List Char) : trim (l.dropWhile isspace) = trim l := by
  unfold trim
  rw [dropWhile_idem]

/-- The credential of a line with a comma depends only on what precedes the comma. -/
theorem credentialOf_comma (pre a : List Char) (h : ',' ∉ pre) :
    credentialOf (pre ++ ',' :: a) = trim pre := by
  have hc : isspace ',' = false := by decide
  have h1 : trim (pre ++ ',' :: a) =
      pre.dropWhile isspace ++ ',' :: (a.reverse.dropWhile isspace).reverse := by
    unfold trim
    rw [dropWhile_append_stop isspace pre a ',' hc]
    rw [List.reverse_append, List.reverse_cons, List.append_assoc]
    simp only [List.singleton_append]
    rw [dropWhile_append_stop isspace a.reverse _ ',' hc]
    simp
  have h2 : ∀ x ∈ pre.dropWhile isspace, decide (x ≠ ',') = true := by
    intro x hx
    have hx2 : x ∈ pre := (List.dropWhile_sublist _).subset hx
    simp only [ne_eq, decide_not, Bool.not_eq_true', decide_eq_false_iff_not]
    intro hxc
    rw [hxc] at hx2
    exact h hx2
  unfold credentialOf beforeComma
  rw [h1, takeWhile_append_stop _ _ _ ',' h2 (by simp)]
  exact trim_drop_left pre

theorem beforeComma_noComma (l : List Char) (h : ',' ∉ l) : beforeComma l = l := by
  unfold beforeComma
  apply takeWhile_all
  intro x hx
  simp only [ne_eq, decide_not, Bool.not_eq_true', decide_eq_false_iff_not]
  intro hxc
  rw [hxc] at hx
  exact h hx

theorem indexOf_eq (c : Char) (l : List Char) :
    indexOf c l = if c ∈ l then ((l.takeWhile (fun x => x ≠ c)).length : Int) else -1 := by
  induction l with
  | nil => simp [indexOf]
  | cons x xs ih =>
    by_cases hx : x = c
    · simp [indexOf, hx, List.takeWhile]
    · have hx2 : ¬ c = x := fun h => hx h.symm
      simp only [indexOf, hx, if_false, List.mem_cons, hx2, false_or]
      rw [ih]
      by_cases hm : c ∈ xs
      · simp only [hm, if_true]
        have hnn : ¬ (((xs.takeWhile (fun x => x ≠ c)).length : Int) < 0) := by omega
        simp [hnn, List.takeWhile, hx]
      · simp [hm]

/-- The `indexOf`/`substring` pair of `readIDListFromSD` cuts the line at its
first comma. -/
theorem commaCut_eq (line : List Char) :
    (if indexOf ',' line ≥ 0 then substring line 0 (indexOf ',' line).toNat else line)
      = beforeComma line := by
  rw [indexOf_eq]
  by_cases hm : ',' ∈ line
  · simp only [hm, if_true]
    have hnn : ((line.takeWhile (fun x => x ≠ ',')).length : Int) ≥ 0 := by omega
    simp only [hnn, if_true, Int.toNat_ofNat]
    have hlen : 0 < line.length := List.length_pos_of_mem hm
    have hle : (line.takeWhile (fun x => x ≠ ',')).length ≤ line.length :=
      (List.takeWhile_sublist _).length_le
    unfold substring beforeComma
    simp only [gt_iff_lt, Nat.not_lt_zero, if_false, ge_iff_le, Nat.le_zero_eq,
      List.drop_zero]
    rw [if_neg (by omega), Nat.min_eq_left hle]
    exact take_takeWhile_length _ line
  · have hneg : ¬ ((-1 : Int) ≥ 0) := by omega
    simp only [hm, if_false, hneg]
    exact (beforeComma_noComma line hm).symm

/-! ### The read loop of the credential list -/

theorem readStringUntil_lines (rest : List Char) (h : rest ≠ []) :
    ((readStringUntil '\n' rest).2.length < rest.length) ∧
    (fileLines rest = (readStringUntil '\n' rest).1 :: fileLines (readStringUntil '\n' rest).2 ∨
      (fileLines rest = [(readStringUntil '\n' rest).1] ∧ (readStringUntil '\n' rest).2 = [])) := by
  induction rest with
  | nil => exact absurd rfl h
  | cons c cs ih =>
    by_cases hc : c = '\n'
    · simp [readStringUntil, fileLines, hc]
    · have e1 : readStringUntil '\n' (c :: cs) =
          (c :: (readStringUntil '\n' cs).1, (readStringUntil '\n' cs).2) := by
        rw [readStringUntil, if_neg hc]
      have e2 : fileLines (c :: cs) =
          (match fileLines cs with
            | [] => [[c]]
            | l :: ls => (c :: l) :: ls) := by
        rw [fileLines, if_neg hc]
      by_cases hcs : cs = []
      · subst hcs
        simp [readStringUntil, fileLines, hc]
      · obtain ⟨i1, i2⟩ := ih hcs
        rw [e1, e2]
        refine ⟨?_, ?_⟩
        · simp only [List.length_cons]
          omega
        · rcases i2 with i2 | ⟨i2, i3⟩
          · left
            rw [i2]
          · right
            rw [i2]
            exact ⟨rfl, i3⟩

theorem lineCredential_nil : lineCredential [] = none := by decide

theorem fileLines_filterMap (rest : List Char) (h : rest ≠ []) :
    (fileLines rest).filterMap lineCredential =
      (lineCredential (readStringUntil '\n' rest).1).toList ++
        (fileLines (readStringUntil '\n' rest).2).filterMap lineCredential := by
  rcases (readStringUntil_lines rest h).2 with h1 | ⟨h1, h2⟩
  · rw [h1, List.filterMap_cons]
    cases lineCredential (readStringUntil '\n' rest).1 <;> simp
  · rw [h1, h2]
    simp only [fileLines, List.filterMap_cons, List.filterMap_nil, lineCredential_nil]
    cases lineCredential (readStringUntil '\n' rest).1 <;> simp

/-- One pass of the loop body pushes exactly the credential of the line read. -/
theorem readIDLoop_step (fuel : Nat) (rest : List Char) (ids : List (List Char))
    (h : rest ≠ []) :
    readIDLoop (fuel + 1) rest ids =
      readIDLoop fuel (readStringUntil '\n' rest).2
        (ids ++ (lineCredential (readStringUntil '\n' rest).1).toList) := by
  have hlen : ¬ rest.length = 0 := by
    intro h0
    exact h (List.length_eq_zero.mp h0)
  rw [readIDLoop]
  simp only [hlen, if_false]
  rw [commaCut_eq]
  by_cases hl : (trim (readStringUntil '\n' rest).1).length = 0
  · have hl2 : trim (readStringUntil '\n' rest).1 = [] := List.length_eq_zero.mp hl
    have hcr : lineCredential (readStringUntil '\n' rest).1 = none := by
      simp [lineCredential, credentialOf, hl2, beforeComma, trim_nil]
    simp [hl, hcr]
  · simp only [hl, if_false]
    by_cases hu : credentialOf (readStringUntil '\n' rest).1 = []
    · have hu2 : ¬ (trim (beforeComma (trim (readStringUntil '\n' rest).1))).length > 0 := by
        have : trim (beforeComma (trim (readStringUntil '\n' rest).1)) = [] := hu
        rw [this]; simp
      simp [hu2, lineCredential, hu]
    · have hu2 : (trim (beforeComma (trim (readStringUntil '\n' rest).1))).length > 0 :=
        List.length_pos.mpr hu
      simp only [hu2, if_true, lineCredential, hu, if_false, Option.toList]
      rfl

theorem readIDLoop_eq (fuel : Nat) (rest : List Char) (ids : List (List Char))
    (h : rest.length ≤ fuel) :
    readIDLoop fuel rest ids = ids ++ (fileLines rest).filterMap lineCredential := by
  induction fuel generalizing rest ids with
  | zero =>
    have hr : rest = [] := List.length_eq_zero.mp (by omega)
    rw [hr]
    simp [readIDLoop, fileLines, lineCredential_nil]
  | succ k ih =>
    by_cases hr : rest = []
    · rw [hr]
      simp [readIDLoop, fileLines, lineCredential_nil]
    · rw [readIDLoop_step k rest ids hr, fileLines_filterMap rest hr]
      have hlt := (readStringUntil_lines rest hr).1
      rw [ih _ _ (by omega), List.append_assoc]

/-- The list `readIDListFromSD` loads is the list of the credentials of the lines
of the file, in order. -/
theorem loadIDList_eq (content : List Char) :
    loadIDList content = (fileLines content).filterMap lineCredential := by
  unfold loadIDList
  rw [readIDLoop_eq _ _ _ (Nat.le_refl _)]
  rfl

theorem isAuthorized_iff (ids : List (List Char)) (uid : List Char) :
    isAuthorized ids uid = true ↔ uid ∈ ids := by
  induction ids with
  | nil => simp [isAuthorized]
  | cons x xs ih =>
    by_cases hx : x = uid
    · simp [isAuthorized, hx]
    · have hx2 : ¬ uid = x := fun h => hx h.symm
      simp [isAuthorized, hx, hx2, ih]

theorem lineCredential_sameUpToComma (l1 l2 : List Char) (h : sameUpToComma l1 l2) :
    lineCredential l1 = lineCredential l2 := by
  rcases h with h | ⟨pre, a1, a2, hp, h1, h2⟩
  · rw [h]
  · unfold lineCredential
    rw [h1, h2, credentialOf_comma pre a1 hp, credentialOf_comma pre a2 hp]

theorem filterMap_forall2 (ls1 ls2 : List (List Char)) (h : List.Forall₂ sameUpToComma ls1 ls2) :
    ls1.filterMap lineCredential = ls2.filterMap lineCredential := by
  induction h with
  | nil => rfl
  | cons hab _ ih =>
    rw [List.filterMap_cons, List.filterMap_cons, lineCredential_sameUpToComma _ _ hab, ih]

/-- C1: after `readIDListFromSD` has loaded a file, `isAuthorized(id)` is true exactly
when some line of the file is not blank and has `id` as its credential id (the
trimmed text before the first comma of the trimmed line), that text not being
empty; the match is exact equality of strings; and two files whose lines differ
only after the first comma give the same answers. -/
theorem C1_authorized_iff_listed (content : List Char) (id : List Char) :
    (isAuthorized (loadIDList content) id = true ↔
      ∃ l ∈ fileLines content, trim l ≠ [] ∧ credentialOf l ≠ [] ∧ id = credentialOf l) ∧
    (∀ s c, s.id_file = some c →
      (readIDListFromSD s).1 = true ∧ (readIDListFromSD s).2.id_list = loadIDList c) ∧
    (∀ content2, List.Forall₂ sameUpToComma (fileLines content) (fileLines content2) →
      isAuthorized (loadIDList content) id = isAuthorized (loadIDList content2) id) := by
  refine ⟨?_, ?_, ?_⟩
  · rw [isAuthorized_iff, loadIDList_eq, List.mem_filterMap]
    constructor
    · rintro ⟨l, hl, hc⟩
      unfold lineCredential at hc
      by_cases he : credentialOf l = []
      · rw [if_pos he] at hc; exact Option.noConfusion hc
      · rw [if_neg he] at hc
        refine ⟨l, hl, ?_, he, (Option.some.inj hc).symm⟩
        intro ht
        apply he
        simp [credentialOf, ht, beforeComma, trim_nil]
    · rintro ⟨l, hl, _, he, hid⟩
      exact ⟨l, hl, by unfold lineCredential; rw [if_neg he, hid]⟩
  · intro s c hc
    have hb := (fileEvents_blinkLED LED_INTENSITY 0 LED_INTENSITY 2 120 120
      { s with id_list := [] }).2
    unfold readIDListFromSD
    generalize blinkLED LED_INTENSITY 0 LED_INTENSITY 2 120 120 { s with id_list := [] } = B at hb
    simp only [] at hb ⊢
    rw [hc] at hb
    simp [hb]
  · intro content2 h
    rw [loadIDList_eq, loadIDList_eq, filterMap_forall2 _ _ h]

theorem C1_authorized_iff_listed_witness :
    isAuthorized (loadIDList "04a1b2c3,Alice\n".toList) "04a1b2c3".toList =
      isAuthorized (loadIDList "04a1b2c3,Bob the 2nd\n".toList) "04a1b2c3".toList ∧
    isAuthorized (loadIDList "04a1b2c3,Alice\n".toList) "04a1b2c3".toList = true ∧
    isAuthorized (loadIDList "04a1b2c3,Alice\n".toList) "04A1B2C3".toList = false := by
  refine ⟨?_, by decide, by decide⟩
  refine (C1_authorized_iff_listed "04a1b2c3,Alice\n".toList "04a1b2c3".toList).2.2
    "04a1b2c3,Bob the 2nd\n".toList ?_
  have e1 : fileLines "04a1b2c3,Alice\n".toList = ["04a1b2c3,Alice".toList, []] := by decide
  have e2 : fileLines "04a1b2c3,Bob the 2nd\n".toList =
      ["04a1b2c3,Bob the 2nd".toList, []] := by decide
  rw [e1, e2]
  refine List.Forall₂.cons (Or.inr ⟨"04a1b2c3".toList, "Alice".toList, "Bob the 2nd".toList,
    by decide, by decide, by decide⟩) (List.Forall₂.cons (Or.inl rfl) List.Forall₂.nil)

theorem fileLines_append_newline (l r : List Char) (h : '\n' ∉ l) :
    fileLines (l ++ '\n' :: r) = l :: fileLines r := by
  induction l with
  | nil => simp [fileLines]
  | cons x xs ih =>
    have hx : ¬ x = '\n' := fun hx => h (by rw [hx]; exact List.mem_cons_self _ _)
    have hxs : '\n' ∉ xs := fun hm => h (List.mem_cons_of_mem _ hm)
    rw [List.cons_append, fileLines, if_neg hx, ih hxs]

theorem fileLines_no_newline (l : List Char) (h : '\n' ∉ l) : fileLines l = [l] := by
  induction l with
  | nil => rfl
  | cons x xs ih =>
    have hx : ¬ x = '\n' := fun hx => h (by rw [hx]; exact List.mem_cons_self _ _)
    have hxs : '\n' ∉ xs := fun hm => h (List.mem_cons_of_mem _ hm)
    rw [fileLines, if_neg hx, ih hxs]

theorem entry_text_no_newline (e : Entry) (h : e.ok) : '\n' ∉ e.text := by
  cases e with
  | blank ws => exact h.2
  | cred id note =>
    obtain ⟨_, _, h3, _, h5⟩ := h
    cases note with
    | none => exact h3
    | some n =>
      simp only [Entry.text, List.mem_append, List.mem_cons, not_or]
      exact ⟨h3, by decide, h5 n rfl⟩

theorem lineCredential_text (e : Entry) (h : e.ok) :
    (lineCredential e.text).toList = idsOf [e] := by
  cases e with
  | blank ws =>
    have ht : trim ws = [] := trim_all_space ws h.1
    simp [Entry.text, idsOf, lineCredential, credentialOf, ht, beforeComma, trim_nil]
  | cred id note =>
    obtain ⟨h1, h2, _, h4, _⟩ := h
    have ht : trim id = id := trim_edgeFree id h4
    have hc : credentialOf (Entry.cred id note).text = id := by
      cases note with
      | none =>
        simp only [Entry.text, credentialOf]
        rw [ht, beforeComma_noComma id h2, ht]
      | some n =>
        simp only [Entry.text]
        rw [credentialOf_comma id n h2, ht]
    simp [lineCredential, hc, h1, idsOf]

theorem idsOf_append (a b : List Entry) : idsOf (a ++ b) = idsOf a ++ idsOf b := by
  induction a with
  | nil => rfl
  | cons e es ih => cases e <;> simp [idsOf, ih]

theorem renderLines_credentials (es : List Entry) (h : ∀ e ∈ es, e.ok) (t : List Char) :
    (fileLines (renderLines es ++ t)).filterMap lineCredential =
      idsOf es ++ (fileLines t).filterMap lineCredential := by
  induction es with
  | nil => rfl
  | cons e es ih =>
    have he : e.ok := h e (List.mem_cons_self _ _)
    have hes : ∀ x ∈ es, x.ok := fun x hx => h x (List.mem_cons_of_mem _ hx)
    have hsplit : idsOf (e :: es) = idsOf [e] ++ idsOf es := idsOf_append [e] es
    simp only [renderLines, List.append_assoc, List.cons_append]
    rw [fileLines_append_newline _ _ (entry_text_no_newline e he), List.filterMap_cons, ih hes,
      hsplit, ← lineCredential_text e he]
    cases lineCredential e.text <;> simp

/-- C12: a file written from credentials that are non-empty, free of commas and
line feeds and of white space at their ends, one per line, each optionally
followed by a comma and a note without line feed, with blank lines anywhere,
is loaded by `readIDListFromSD` into exactly those credentials, in order and
with multiplicities, whether or not the last line ends with a line feed. -/
theorem C12_list_roundtrip (es : List Entry) (h : ∀ e ∈ es, e.ok) :
    loadIDList (renderLines es) = idsOf es ∧
    (∀ last : Entry, last.ok →
      loadIDList (renderLines es ++ last.text) = idsOf (es ++ [last])) ∧
    (∀ s : State, s.id_file = some (renderLines es) →
      (readIDListFromSD s).1 = true ∧ (readIDListFromSD s).2.id_list = idsOf es) := by
  have h1 : loadIDList (renderLines es) = idsOf es := by
    have := renderLines_credentials es h []
    rw [List.append_nil] at this
    rw [loadIDList_eq, this]
    simp [fileLines, lineCredential_nil]
  refine ⟨h1, ?_, ?_⟩
  · intro last hl
    have hf : List.filterMap lineCredential [last.text] = (lineCredential last.text).toList := by
      cases hq : lineCredential last.text <;> simp [hq]
    rw [loadIDList_eq, renderLines_credentials es h,
      fileLines_no_newline _ (entry_text_no_newline last hl), idsOf_append,
      ← lineCredential_text last hl, hf]
  · intro s hs
    have hb := (fileEvents_blinkLED LED_INTENSITY 0 LED_INTENSITY 2 120 120
      { s with id_list := [] }).2
    unfold readIDListFromSD
    generalize blinkLED LED_INTENSITY 0 LED_INTENSITY 2 120 120 { s with id_list := [] } = B at hb
    simp only [] at hb ⊢
    rw [hs] at hb
    simp [hb, h1]

theorem C12_list_roundtrip_witness :
    loadIDList (renderLines [Entry.cred "04a1b2c3".toList (some " Alice, floor 2".toList),
        Entry.blank " \t".toList, Entry.cred "ffee0011".toList none,
        Entry.cred "04a1b2c3".toList none]) =
      ["04a1b2c3".toList, "ffee0011".toList, "04a1b2c3".toList] :=
  (C12_list_roundtrip [Entry.cred "04a1b2c3".toList (some " Alice, floor 2".toList),
      Entry.blank " \t".toList, Entry.cred "ffee0011".toList none,
      Entry.cred "04a1b2c3".toList none] (by
    intro e he
    simp only [List.mem_cons, List.mem_singleton, List.not_mem_nil, or_false] at he
    rcases he with he | he | he | he <;> subst he
    · exact ⟨by decide, by decide, by decide, ⟨by decide, by decide⟩,
        fun n hn => by cases hn; decide⟩
    · exact ⟨by decide, by decide⟩
    · exact ⟨by decide, by decide, by decide, ⟨by decide, by decide⟩,
        fun n hn => by cases hn⟩
    · exact ⟨by decide, by decide, by decide, ⟨by decide, by decide⟩,
        fun n hn => by cases hn⟩)).1

/-! ### Boot-counter round trip -/

theorem isdigit_facts (c : Char) (h : isdigit c = true) :
    isspace c = false ∧ c ≠ '-' ∧ c ≠ '+' ∧ c ≠ '\n' := by
  simp only [isdigit, Bool.and_eq_true, decide_eq_true_eq] at h
  refine ⟨?_, ?_, ?_, ?_⟩
  · simp only [isspace, Bool.or_eq_false_iff, decide_eq_false_iff_not, Bool.and_eq_false_imp,
      decide_eq_true_eq]
    refine ⟨?_, ?_⟩
    · intro hc
      rw [hc] at h
      revert h
      decide
    · intro _
      omega
  · intro hc
    rw [hc] at h
    revert h
    decide
  · intro hc
    rw [hc] at h
    revert h
    decide
  · intro hc
    rw [hc] at h
    revert h
    decide

theorem readStringUntil_append (t : Char) (l r : List Char) (h : t ∉ l) :
    readStringUntil t (l ++ t :: r) = (l, r) := by
  induction l with
  | nil => simp [readStringUntil]
  | cons x xs ih =>
    have hx : ¬ x = t := fun hx => h (by rw [hx]; exact List.mem_cons_self _ _)
    have hxs : t ∉ xs := fun hm => h (List.mem_cons_of_mem _ hm)
    rw [List.cons_append, readStringUntil, if_neg hx, ih hxs]

/-- What `readBootId` returns for the file `writeBootId(id)` wrote. -/
theorem readBootId_written (id : Nat) (s : State) :
    (readBootId (writeBootId true id s).2).1 = toUint32 (min LONG_MAX (id : Int)) := by
  obtain ⟨h1, h2, h3, _⟩ := utoa_decimal id
  have hfile : (writeBootId true id s).2.boot_file = some (utoa id 10 ++ ['\n']) := rfl
  have hnl : '\n' ∉ utoa id 10 := fun hm => (isdigit_facts _ (h1 _ hm)).2.2.2 rfl
  have hsp : ∀ c ∈ utoa id 10, isspace c = false := fun c hc => (isdigit_facts c (h1 c hc)).1
  have hedge : edgeFree (utoa id 10) := by
    constructor
    · intro c hc
      exact hsp c (List.mem_of_mem_head? hc)
    · intro c hc
      exact hsp c (List.mem_of_mem_getLast? hc)
  have htrim : trim (utoa id 10) = utoa id 10 := trim_edgeFree _ hedge
  have hlen : (utoa id 10).length > 0 := List.length_pos.mpr h3
  have hint : toInt (utoa id 10) = min LONG_MAX (id : Int) := by
    unfold toInt
    rw [dropWhile_head isspace _ hedge.1]
    cases hu : utoa id 10 with
    | nil => exact absurd hu h3
    | cons c r =>
      have hc : isdigit c = true := h1 c (by rw [hu]; exact List.mem_cons_self _ _)
      obtain ⟨_, f2, f3, _⟩ := isdigit_facts c hc
      simp only [f2, f3, if_false]
      rw [← hu, h2]
  unfold readBootId
  rw [hfile]
  simp only []
  rw [readStringUntil_append _ _ _ hnl]
  simp only [htrim, hlen, if_true, hint]

/-- The boot-counter round trip below 2^31, and what is read back from 2^31 on:
after a successful `writeBootId(id)`, which leaves the decimal rendering of id
and a line feed in the file, `readBootId()` returns id when id < 2^31 and
2147483647 otherwise, where `toInt` saturates. -/
theorem readBootId_roundtrip (id : Nat) (s : State) :
    (writeBootId true id s).1 = true ∧
    (writeBootId true id s).2.boot_file = some (utoa id 10 ++ ['\n']) ∧
    (id < 2147483648 → (readBootId (writeBootId true id s).2).1 = id) ∧
    (2147483648 ≤ id → (readBootId (writeBootId true id s).2).1 = 2147483647) := by
  refine ⟨rfl, rfl, ?_, ?_⟩
  · intro h
    rw [readBootId_written]
    unfold toUint32 LONG_MAX
    omega
  · intro h
    rw [readBootId_written]
    unfold toUint32 LONG_MAX
    omega

/-- C11 (failing input): `writeBootId(2147483648)` succeeds and leaves the text
"2147483648" and a line feed in the boot-counter file, and `readBootId()` then
returns 2147483647 instead of 2147483648: `toInt` yields a 32-bit `long` and
saturates before the cast to `uint32_t`. -/
theorem C11_roundtrip_fails :
    (2147483648 : Nat) < 4294967296 ∧
    (writeBootId true 2147483648 idleState).1 = true ∧
    (writeBootId true 2147483648 idleState).2.boot_file = some "2147483648\n".toList ∧
    (readBootId (writeBootId true 2147483648 idleState).2).1 = 2147483647 ∧
    (readBootId (writeBootId true 2147483648 idleState).2).1 ≠ 2147483648 := by
  decide

end M5Csv
